import Mathlib

/-!
# Verification of the Stats-of-the-week ingestion pipeline

Shallow embedding of the core of this repository:
* `src/ingest.py` — upstream fetch with retry/backoff (`riot_get`), the
  per-entity ingestion loop (`ingest`), row inserts and checkpointing;
* `src/weekly_report.py` — the records ("high score") engine;
* `src/backlog_deadtime.py` — the time-dead backfill pass.

Machine integers are modelled as `Nat`/`Int` (no overflow is relevant),
fallible paths return explicit result values, and the SQLite tables are
modelled as lists of rows.
-/

namespace Stats

/-! ## Upstream client: `riot_get` (src/ingest.py lines 30-65)

One call is driven by an oracle giving, for each attempt index, what
`requests.get` does on that attempt: either a response (status code plus the
`Retry-After` header value used on 429) or a network-level exception
(`requests.exceptions.RequestException` raised by `requests.get` itself). -/

/-- What one `requests.get` call produces, as observed by `riot_get`. -/
inductive Attempt where
  | resp (status : Nat) (retryAfter : Nat)
  | netErr
deriving DecidableEq

/-- An exception escaping `riot_get`: an `HTTPError` carrying a status, a
network-level exception, or the `TypeError` from `raise last` when `last` is
not an exception (unreachable for `max_retries ≥ 1`). -/
inductive FetchErr where
  | httpError (status : Nat)
  | netExn
  | typeErr
deriving DecidableEq

/-- Outcome of a `riot_get` call: the parsed JSON body is irrelevant here, so
success is a bare marker. -/
inductive FetchResult where
  | ok
  | raised (e : FetchErr)
deriving DecidableEq

/-- The `last` variable of `riot_get`: the most recent response, or the most
recent exception caught by the `except` handler. -/
inductive LastSeen where
  | response (status : Nat)
  | exn (e : FetchErr)
deriving DecidableEq

/-- Observable trace of one `riot_get` call: how many `requests.get` attempts
were made, the sequence of `time.sleep` durations (in seconds, in order), and
how the call ended. -/
structure FetchTrace where
  attempts : Nat
  sleeps : List Nat
  result : FetchResult
deriving DecidableEq

/-- `min(2 ** (attempt + 1), 30)` — the backoff used for 5xx statuses and for
exceptions caught by the `except` handler (src/ingest.py lines 48 and 58). -/
def backoff (attempt : Nat) : Nat := min (2 ^ (attempt + 1)) 30

/-- The code after the loop (src/ingest.py lines 62-65): if `last` is a
`requests.Response`, `last.raise_for_status()` raises `HTTPError` exactly when
`400 ≤ status < 600`; otherwise `raise last` re-raises the stored exception.
`raise`-ing a non-exception (a non-error response, or `None`) is a
`TypeError`; both states are unreachable in actual runs. -/
def finalRaise : Option LastSeen → FetchResult
  | some (.response s) => if 400 ≤ s ∧ s < 600 then .raised (.httpError s) else .raised .typeErr
  | some (.exn e) => .raised e
  | none => .raised .typeErr

/-- The retry loop of `riot_get` (src/ingest.py lines 34-60): `remaining` is
the number of loop iterations left, `idx` the current attempt index, `last`
the `last` variable, `sleeps` the sleeps so far (reversed). A 429 sleeps for
`Retry-After` and retries; 500/502/503/504 sleep for the backoff and retry;
any other status with `400 ≤ status < 600` makes `r.raise_for_status()` raise
an `HTTPError`, which is caught by the broad
`except requests.exceptions.RequestException` handler and therefore also
sleeps for the backoff and retries; a non-error status returns the body. -/
def riotGetAux (oracle : Nat → Attempt) :
    Nat → Nat → Option LastSeen → List Nat → FetchTrace
  | 0, idx, last, sleeps => ⟨idx, sleeps.reverse, finalRaise last⟩
  | remaining + 1, idx, _last, sleeps =>
    match oracle idx with
    | .netErr =>
        riotGetAux oracle remaining (idx + 1) (some (.exn .netExn)) (backoff idx :: sleeps)
    | .resp s ra =>
        if s = 429 then
          riotGetAux oracle remaining (idx + 1) (some (.response s)) (ra :: sleeps)
        else if s = 500 ∨ s = 502 ∨ s = 503 ∨ s = 504 then
          riotGetAux oracle remaining (idx + 1) (some (.response s)) (backoff idx :: sleeps)
        else if 400 ≤ s ∧ s < 600 then
          riotGetAux oracle remaining (idx + 1) (some (.exn (.httpError s))) (backoff idx :: sleeps)
        else
          ⟨idx + 1, sleeps.reverse, .ok⟩

/-- `riot_get(url, api_key, ...)` with its default `max_retries=6`
(src/ingest.py line 30), as a function of the attempt oracle. -/
def riotGet (oracle : Nat → Attempt) (maxRetries : Nat := 6) : FetchTrace :=
  riotGetAux oracle maxRetries 0 none []

/-- C4 (evaluation at the failing input): an upstream that answers HTTP 404 on
every attempt. `riot_get` does NOT fail immediately: `r.raise_for_status()`
raises an `HTTPError`, the broad `except RequestException` handler catches it,
and the call sleeps 2, 4, 8, 16, 30 and 30 seconds across 6 attempts before
finally re-raising the `HTTPError`. The claim (and spec §4.1) demand an
immediate, non-retried failure on a 4xx other than 429. -/
theorem riotGet_retries_client_error :
    riotGet (fun _ => .resp 404 2) =
      ⟨6, [2, 4, 8, 16, 30, 30], .raised (.httpError 404)⟩ := by
  decide

/-- C5: against an upstream that returns HTTP 503 on every attempt,
`riot_get` makes exactly its attempt ceiling of 6 attempts, every backoff
sleep is capped at 30 seconds, and the call terminates by raising the last
observed failure (an `HTTPError` for status 503) instead of retrying
indefinitely. -/
theorem riotGet_always503_terminates (oracle : Nat → Attempt)
    (h : ∀ i, ∃ ra, oracle i = .resp 503 ra) :
    (riotGet oracle).attempts = 6 ∧
    (∀ s ∈ (riotGet oracle).sleeps, s ≤ 30) ∧
    (riotGet oracle).result = .raised (.httpError 503) := by
  obtain ⟨r0, h0⟩ := h 0
  obtain ⟨r1, h1⟩ := h 1
  obtain ⟨r2, h2⟩ := h 2
  obtain ⟨r3, h3⟩ := h 3
  obtain ⟨r4, h4⟩ := h 4
  obtain ⟨r5, h5⟩ := h 5
  have : riotGet oracle = ⟨6, [2, 4, 8, 16, 30, 30], .raised (.httpError 503)⟩ := by
    simp [riotGet, riotGetAux, h0, h1, h2, h3, h4, h5, backoff, finalRaise]
  rw [this]
  refine ⟨rfl, ?_, rfl⟩
  intro s hs
  simp only [List.mem_cons, List.not_mem_nil, or_false] at hs
  rcases hs with rfl | rfl | rfl | rfl | rfl | rfl <;> decide

/-- Witness for C5 at a concrete constant-503 oracle. -/
theorem riotGet_always503_terminates_witness :
    (riotGet (fun _ => .resp 503 7)).attempts = 6 ∧
    (∀ s ∈ (riotGet (fun _ => .resp 503 7)).sleeps, s ≤ 30) ∧
    (riotGet (fun _ => .resp 503 7)).result = .raised (.httpError 503) :=
  riotGet_always503_terminates (fun _ => .resp 503 7) (fun _ => ⟨7, rfl⟩)

/-! ## Records ("high score") engine (src/weekly_report.py lines 336-379)

The `records` table is a list of `(key, row)` pairs; `key` is the metric
name. Numeric values are modelled as exact rationals; every comparison the
claims exercise is exact at the values involved. -/

/-- One row of the `records` table: `value`, `meta_json`, `updated_at`. -/
structure RecordRow where
  value : ℚ
  metaJson : String
  updated_at : Nat
deriving DecidableEq

/-- The `records` table. -/
abbrev RecordsTable := List (String × RecordRow)

/-- `get_record(conn, key)` (src/weekly_report.py lines 336-349). -/
def get_record (tbl : RecordsTable) (key : String) : Option RecordRow :=
  (tbl.find? (fun e => e.1 == key)).map Prod.snd

/-- `set_record(conn, key, value, meta)` (src/weekly_report.py lines 352-363):
an upsert — `INSERT ... ON CONFLICT(key) DO UPDATE` overwrites value,
metadata and timestamp. -/
def set_record (tbl : RecordsTable) (key : String) (v : ℚ) (meta : String)
    (now : Nat) : RecordsTable :=
  if (tbl.find? (fun e => e.1 == key)).isSome then
    tbl.map (fun e => if e.1 == key then (e.1, ⟨v, meta, now⟩) else e)
  else
    tbl ++ [(key, ⟨v, meta, now⟩)]

/-- The epsilon `1e-9` of `update_record_max`/`update_record_min`. -/
def recordEps : ℚ := 1 / 1000000000

/-- `update_record_max(conn, key, new_value, meta)` (src/weekly_report.py
lines 366-371): overwrite and report `True` if no record exists or
`new_value > prev + 1e-9`; else leave the table unchanged and report
`False`. -/
def update_record_max (tbl : RecordsTable) (key : String) (v : ℚ)
    (meta : String) (now : Nat) : Bool × RecordsTable :=
  match get_record tbl key with
  | none => (true, set_record tbl key v meta now)
  | some prev =>
    if prev.value + recordEps < v then (true, set_record tbl key v meta now)
    else (false, tbl)

/-- `update_record_min(conn, key, new_value, meta)` (src/weekly_report.py
lines 374-379), the dual of `update_record_max`. -/
def update_record_min (tbl : RecordsTable) (key : String) (v : ℚ)
    (meta : String) (now : Nat) : Bool × RecordsTable :=
  match get_record tbl key with
  | none => (true, set_record tbl key v meta now)
  | some prev =>
    if v < prev.value - recordEps then (true, set_record tbl key v meta now)
    else (false, tbl)

lemma find?_map_overwrite (tbl : RecordsTable) (key : String) (r : RecordRow) :
    (tbl.map (fun e => if e.1 == key then (e.1, r) else e)).find?
        (fun e => e.1 == key) =
      (tbl.find? (fun e => e.1 == key)).map (fun e => (e.1, r)) := by
  induction tbl with
  | nil => rfl
  | cons hd tl ih =>
    by_cases h : hd.1 = key
    · simp [h]
    · have hb : (hd.1 == key) = false := by simp [h]
      simp only [List.map_cons, List.find?_cons, hb]
      simpa [hb] using ih

/-- After `set_record`, reading the key back gives exactly the new row. -/
lemma get_record_set_record (tbl : RecordsTable) (key : String) (v : ℚ)
    (meta : String) (now : Nat) :
    get_record (set_record tbl key v meta now) key = some ⟨v, meta, now⟩ := by
  unfold get_record set_record
  by_cases h : (tbl.find? (fun e => e.1 == key)).isSome
  · rw [if_pos h, find?_map_overwrite]
    obtain ⟨e, he⟩ := Option.isSome_iff_exists.mp h
    simp [he]
  · rw [if_neg h, List.find?_append]
    have hnone : tbl.find? (fun e => e.1 == key) = none :=
      Option.not_isSome_iff_eq_none.mp h
    simp [hnone]

lemma update_record_max_flag_iff (tbl : RecordsTable) (key : String) (v : ℚ)
    (meta : String) (now : Nat) :
    (update_record_max tbl key v meta now).1 = true ↔
      get_record tbl key = none ∨
        ∃ prev, get_record tbl key = some prev ∧ prev.value + recordEps < v := by
  rcases hp : get_record tbl key with _ | prev
  · simp [update_record_max, hp]
  · by_cases hlt : prev.value + recordEps < v
    · have hupd : update_record_max tbl key v meta now =
          (true, set_record tbl key v meta now) := by
        simp [update_record_max, hp, if_pos hlt]
      rw [hupd]
      exact iff_of_true rfl (Or.inr ⟨prev, rfl, hlt⟩)
    · have hupd : update_record_max tbl key v meta now = (false, tbl) := by
        simp [update_record_max, hp, if_neg hlt]
      rw [hupd]
      apply iff_of_false
      · simp
      · rintro (h | ⟨prev', hprev', hlt'⟩)
        · exact Option.noConfusion h
        · cases Option.some.inj hprev'
          exact hlt hlt'

lemma update_record_max_not_new (tbl : RecordsTable) (key : String) (v : ℚ)
    (meta : String) (now : Nat) :
    (update_record_max tbl key v meta now).1 = false →
      (update_record_max tbl key v meta now).2 = tbl := by
  rcases hp : get_record tbl key with _ | prev
  · simp [update_record_max, hp]
  · by_cases hlt : prev.value + recordEps < v
    · simp [update_record_max, hp, if_pos hlt]
    · simp [update_record_max, hp, if_neg hlt]

lemma update_record_max_new_get (tbl : RecordsTable) (key : String) (v : ℚ)
    (meta : String) (now : Nat) :
    (update_record_max tbl key v meta now).1 = true →
      get_record (update_record_max tbl key v meta now).2 key =
        some ⟨v, meta, now⟩ := by
  rcases hp : get_record tbl key with _ | prev
  · intro _
    simp only [update_record_max, hp]
    exact get_record_set_record tbl key v meta now
  · by_cases hlt : prev.value + recordEps < v
    · intro _
      simp only [update_record_max, hp, if_pos hlt]
      exact get_record_set_record tbl key v meta now
    · simp only [update_record_max, hp, if_neg hlt]
      intro h
      exact absurd h (by simp)

lemma recordEps_nonneg : (0 : ℚ) ≤ recordEps := by norm_num [recordEps]

lemma update_record_max_mono (tbl : RecordsTable) (key : String) (v : ℚ)
    (meta : String) (now : Nat) (prev next : RecordRow)
    (hp : get_record tbl key = some prev)
    (hn : get_record (update_record_max tbl key v meta now).2 key = some next) :
    prev.value ≤ next.value := by
  by_cases hlt : prev.value + recordEps < v
  · have hflag : (update_record_max tbl key v meta now).1 = true := by
      simp [update_record_max, hp, if_pos hlt]
    have := update_record_max_new_get tbl key v meta now hflag
    rw [this] at hn
    cases Option.some.inj hn
    calc prev.value ≤ prev.value + recordEps := le_add_of_nonneg_right recordEps_nonneg
      _ ≤ v := le_of_lt hlt
  · have : (update_record_max tbl key v meta now).2 = tbl := by
      simp [update_record_max, hp, if_neg hlt]
    rw [this, hp] at hn
    cases Option.some.inj hn
    exact le_refl _

lemma update_record_min_flag_iff (tbl : RecordsTable) (key : String) (v : ℚ)
    (meta : String) (now : Nat) :
    (update_record_min tbl key v meta now).1 = true ↔
      get_record tbl key = none ∨
        ∃ prev, get_record tbl key = some prev ∧ v < prev.value - recordEps := by
  rcases hp : get_record tbl key with _ | prev
  · simp [update_record_min, hp]
  · by_cases hlt : v < prev.value - recordEps
    · have hupd : update_record_min tbl key v meta now =
          (true, set_record tbl key v meta now) := by
        simp [update_record_min, hp, if_pos hlt]
      rw [hupd]
      exact iff_of_true rfl (Or.inr ⟨prev, rfl, hlt⟩)
    · have hupd : update_record_min tbl key v meta now = (false, tbl) := by
        simp [update_record_min, hp, if_neg hlt]
      rw [hupd]
      apply iff_of_false
      · simp
      · rintro (h | ⟨prev', hprev', hlt'⟩)
        · exact Option.noConfusion h
        · cases Option.some.inj hprev'
          exact hlt hlt'

lemma update_record_min_not_new (tbl : RecordsTable) (key : String) (v : ℚ)
    (meta : String) (now : Nat) :
    (update_record_min tbl key v meta now).1 = false →
      (update_record_min tbl key v meta now).2 = tbl := by
  rcases hp : get_record tbl key with _ | prev
  · simp [update_record_min, hp]
  · by_cases hlt : v < prev.value - recordEps
    · simp [update_record_min, hp, if_pos hlt]
    · simp [update_record_min, hp, if_neg hlt]

lemma update_record_min_new_get (tbl : RecordsTable) (key : String) (v : ℚ)
    (meta : String) (now : Nat) :
    (update_record_min tbl key v meta now).1 = true →
      get_record (update_record_min tbl key v meta now).2 key =
        some ⟨v, meta, now⟩ := by
  rcases hp : get_record tbl key with _ | prev
  · intro _
    simp only [update_record_min, hp]
    exact get_record_set_record tbl key v meta now
  · by_cases hlt : v < prev.value - recordEps
    · intro _
      simp only [update_record_min, hp, if_pos hlt]
      exact get_record_set_record tbl key v meta now
    · simp only [update_record_min, hp, if_neg hlt]
      intro h
      exact absurd h (by simp)

lemma update_record_min_mono (tbl : RecordsTable) (key : String) (v : ℚ)
    (meta : String) (now : Nat) (prev next : RecordRow)
    (hp : get_record tbl key = some prev)
    (hn : get_record (update_record_min tbl key v meta now).2 key = some next) :
    next.value ≤ prev.value := by
  by_cases hlt : v < prev.value - recordEps
  · have hflag : (update_record_min tbl key v meta now).1 = true := by
      simp [update_record_min, hp, if_pos hlt]
    have := update_record_min_new_get tbl key v meta now hflag
    rw [this] at hn
    cases Option.some.inj hn
    calc v ≤ prev.value - recordEps := le_of_lt hlt
      _ ≤ prev.value := by
        have := recordEps_nonneg
        linarith
  · have : (update_record_min tbl key v meta now).2 = tbl := by
      simp [update_record_min, hp, if_neg hlt]
    rw [this, hp] at hn
    cases Option.some.inj hn
    exact le_refl _

lemma update_record_max_example :
    update_record_max [] "x" 10 "m" 0 = (true, [("x", ⟨10, "m", 0⟩)]) ∧
    update_record_max [("x", ⟨10, "m", 0⟩)] "x" 9 "m" 1 =
      (false, [("x", (⟨10, "m", 0⟩ : RecordRow))]) ∧
    update_record_max [("x", ⟨10, "m", 0⟩)] "x" 11 "m" 2 =
      (true, [("x", ⟨11, "m", 2⟩)]) := by
  refine ⟨?_, ?_, ?_⟩
  · simp [update_record_max, get_record, set_record]
  · have h9 : ¬ ((⟨10, "m", 0⟩ : RecordRow).value + recordEps < 9) := by
      norm_num [recordEps]
    simp [update_record_max, get_record, List.find?, if_neg h9]
  · have h11 : (⟨10, "m", 0⟩ : RecordRow).value + recordEps < 11 := by
      norm_num [recordEps]
    simp [update_record_max, get_record, set_record, List.find?, if_pos h11]

/-- C8: `update_record_max(key, value, meta)` overwrites the stored record and
reports "new record" iff no record exists for `key` or the value exceeds the
stored value by more than the epsilon `1e-9`; otherwise the stored table
(value, metadata and timestamp) is left unchanged and it reports "not new" —
hence the stored value is monotonically non-decreasing under
`update_record_max` (example: 10 → new; 9 → not new, value stays 10; 11 →
new, value becomes 11), and dually non-increasing under
`update_record_min`. -/
theorem update_record_max_min_spec (tbl : RecordsTable) (key : String)
    (v : ℚ) (meta : String) (now : Nat) :
    ((update_record_max tbl key v meta now).1 = true ↔
      get_record tbl key = none ∨
        ∃ prev, get_record tbl key = some prev ∧ prev.value + recordEps < v) ∧
    ((update_record_max tbl key v meta now).1 = true →
      get_record (update_record_max tbl key v meta now).2 key =
        some ⟨v, meta, now⟩) ∧
    ((update_record_max tbl key v meta now).1 = false →
      (update_record_max tbl key v meta now).2 = tbl) ∧
    (∀ prev next, get_record tbl key = some prev →
      get_record (update_record_max tbl key v meta now).2 key = some next →
      prev.value ≤ next.value) ∧
    ((update_record_min tbl key v meta now).1 = true ↔
      get_record tbl key = none ∨
        ∃ prev, get_record tbl key = some prev ∧ v < prev.value - recordEps) ∧
    ((update_record_min tbl key v meta now).1 = false →
      (update_record_min tbl key v meta now).2 = tbl) ∧
    (∀ prev next, get_record tbl key = some prev →
      get_record (update_record_min tbl key v meta now).2 key = some next →
      next.value ≤ prev.value) ∧
    update_record_max [] "x" 10 "m" 0 = (true, [("x", ⟨10, "m", 0⟩)]) ∧
    update_record_max [("x", ⟨10, "m", 0⟩)] "x" 9 "m" 1 =
      (false, [("x", (⟨10, "m", 0⟩ : RecordRow))]) ∧
    update_record_max [("x", ⟨10, "m", 0⟩)] "x" 11 "m" 2 =
      (true, [("x", ⟨11, "m", 2⟩)]) :=
  ⟨update_record_max_flag_iff tbl key v meta now,
   update_record_max_new_get tbl key v meta now,
   update_record_max_not_new tbl key v meta now,
   fun prev next hp hn => update_record_max_mono tbl key v meta now prev next hp hn,
   update_record_min_flag_iff tbl key v meta now,
   update_record_min_not_new tbl key v meta now,
   fun prev next hp hn => update_record_min_mono tbl key v meta now prev next hp hn,
   update_record_max_example.1,
   update_record_max_example.2.1,
   update_record_max_example.2.2⟩

/-- Witness for C8: at a concrete table, "not new" leaves the table
unchanged, as an instance of the claim theorem. -/
theorem update_record_max_min_spec_witness :
    (update_record_max [("x", (⟨10, "m", 0⟩ : RecordRow))] "x" 9 "m" 1).1 = false ∧
    (update_record_max [("x", (⟨10, "m", 0⟩ : RecordRow))] "x" 9 "m" 1).2 =
      [("x", (⟨10, "m", 0⟩ : RecordRow))] := by
  have hfalse : (update_record_max [("x", (⟨10, "m", 0⟩ : RecordRow))] "x" 9 "m" 1).1 = false := by
    have h9 : ¬ ((⟨10, "m", 0⟩ : RecordRow).value + recordEps < 9) := by
      norm_num [recordEps]
    simp [update_record_max, get_record, List.find?, if_neg h9]
  exact ⟨hfalse,
    (update_record_max_min_spec [("x", ⟨10, "m", 0⟩)] "x" 9 "m" 1).2.2.1 hfalse⟩

/-! ## Ingestion data model (src/ingest.py)

The SQLite tables touched by `ingest` are modelled as lists of rows, in
insertion order. `schema.sql` is not part of the sources; per the spec,
`matches.match_id` is a primary key and `(puuid, match_id)` is the unique key
of `player_match_stats`, which is what makes the `INSERT OR IGNORE`
statements no-ops on duplicates — the insert helpers below therefore check
the key before appending. -/

abbrev Puuid := String
abbrev MatchId := String

/-- A participant entry of a payload's `info.participants` list — exactly the
fields `insert_player_match_stats` reads. An absent JSON key is `none`
(`part.get(...)` returns `None`); the `puuid` key is kept as a plain string
since the code only ever compares it against a concrete puuid. -/
structure Participant where
  puuid : String
  win : Option Bool
  teamId : Option Int
  role : Option String
  lane : Option String
  teamPosition : Option String
  championId : Option Int
  championName : Option String
  kills : Option Int
  deaths : Option Int
  assists : Option Int
  totalMinionsKilled : Option Int
  neutralMinionsKilled : Option Int
  goldEarned : Option Int
  goldSpent : Option Int
  totalDamageDealtToChampions : Option Int
  totalDamageTaken : Option Int
  visionScore : Option Int
  wardsPlaced : Option Int
  wardsKilled : Option Int
  turretKills : Option Int
  totalTimeSpentDead : Option Int
deriving DecidableEq

/-- A JSON value read where a number is expected: `num n` when
`isinstance(x, (int, float))` holds, `nonnum` when the key is present but not
numeric (e.g. a string). An absent key is `Option.none` at the use site. -/
inductive JNum where
  | num (n : Int)
  | nonnum
deriving DecidableEq

/-- `int(x / 1000) if isinstance(x, (int, float)) else None`
(src/ingest.py lines 159 and 181); `int(...)` truncates toward zero. -/
def msToSec : Option JNum → Option Int
  | some (.num n) => some (n.tdiv 1000)
  | _ => none

/-- `int(x) if isinstance(x, (int, float)) else None`
(src/ingest.py line 162). -/
def jnumToInt : Option JNum → Option Int
  | some (.num n) => some n
  | _ => none

/-- The `info` object of a match payload — the fields `ingest` reads.
A payload with no `info` key behaves as the all-absent value. -/
structure MatchInfo where
  queueId : Option Int
  gameStartTimestamp : Option JNum
  gameDuration : Option JNum
  gameMode : Option String
  gameType : Option String
  mapId : Option Int
  participants : List Participant
deriving DecidableEq

/-- One row of the `matches` table. -/
structure MatchRow where
  match_id : MatchId
  routing : String
  queue_id : Option Int
  game_start_ts : Option Int
  duration_s : Option Int
  game_mode : Option String
  game_type : Option String
  map_id : Option Int
  ingested_at : Nat
deriving DecidableEq

/-- One row of the `player_match_stats` table. -/
structure StatRow where
  puuid : Puuid
  match_id : MatchId
  win : Int
  team_id : Option Int
  role : Option String
  lane : Option String
  position : Option String
  champion_id : Option Int
  champion_name : Option String
  kills : Int
  deaths : Int
  assists : Int
  cs : Int
  gold_earned : Option Int
  gold_spent : Option Int
  dmg_to_champs : Option Int
  dmg_taken : Option Int
  vision_score : Option Int
  wards_placed : Option Int
  wards_killed : Option Int
  turret_kills : Option Int
  time_dead_s : Option Int
  game_start_ts : Option Int
  queue_id : Option Int
deriving DecidableEq

/-- One row of the `ingest_state` table. -/
structure CursorRow where
  puuid : Puuid
  last_end_time_ts : Nat
  updated_at : Nat
deriving DecidableEq

/-- The database state touched by `ingest` (the `players` table is written by
`upsert_player` but never read back by any code a claim covers, so it is not
modelled). -/
structure DB where
  matchRows : List MatchRow
  player_match_stats : List StatRow
  ingest_state : List CursorRow
deriving DecidableEq

/-- `match_exists(conn, match_id)` (src/ingest.py lines 131-133). -/
def match_exists (db : DB) (mid : MatchId) : Bool :=
  db.matchRows.any (fun r => r.match_id == mid)

/-- The `SELECT 1 FROM player_match_stats WHERE puuid=? AND match_id=?`
probe of `ingest` (src/ingest.py lines 308-311), also the key lookup behind
the stat table's unique constraint. -/
def stat_exists (db : DB) (pu : Puuid) (mid : MatchId) : Bool :=
  db.player_match_stats.any (fun r => r.puuid == pu && r.match_id == mid)

/-- `get_checkpoint(conn, puuid)` (src/ingest.py lines 112-117). -/
def get_checkpoint (db : DB) (pu : Puuid) : Option Nat :=
  (db.ingest_state.find? (fun r => r.puuid == pu)).map CursorRow.last_end_time_ts

/-- `set_checkpoint(conn, puuid, end_ts)` (src/ingest.py lines 119-129):
`INSERT ... ON CONFLICT(puuid) DO UPDATE` — an upsert of
`(last_end_time_ts, updated_at)`. -/
def set_checkpoint (db : DB) (pu : Puuid) (endTs : Nat) (now : Nat) : DB :=
  if (db.ingest_state.find? (fun r => r.puuid == pu)).isSome then
    { db with ingest_state :=
        db.ingest_state.map (fun r => if r.puuid == pu then ⟨r.puuid, endTs, now⟩ else r) }
  else
    { db with ingest_state := db.ingest_state ++ [⟨pu, endTs, now⟩] }

/-- `find_participant(match_json, puuid)` (src/ingest.py lines 146-150). -/
def find_participant (info : MatchInfo) (pu : Puuid) : Option Participant :=
  info.participants.find? (fun p => p.puuid == pu)

/-- `insert_match_row(conn, match_id, routing, match_json)`
(src/ingest.py lines 154-175): `INSERT OR IGNORE INTO matches`. -/
def insert_match_row (db : DB) (mid : MatchId) (routing : String)
    (info : MatchInfo) (now : Nat) : DB :=
  let row : MatchRow :=
    { match_id := mid, routing := routing, queue_id := info.queueId,
      game_start_ts := msToSec info.gameStartTimestamp,
      duration_s := jnumToInt info.gameDuration,
      game_mode := info.gameMode, game_type := info.gameType,
      map_id := info.mapId, ingested_at := now }
  if match_exists db mid then db
  else { db with matchRows := db.matchRows ++ [row] }

/-- The row built by `insert_player_match_stats` once the participant and the
start timestamp have been resolved (src/ingest.py lines 187-245). -/
def mkStatRow (pu : Puuid) (mid : MatchId) (info : MatchInfo)
    (part : Participant) (ts : Int) : StatRow :=
  { puuid := pu, match_id := mid,
    win := if part.win.getD false then 1 else 0,
    team_id := part.teamId, role := part.role, lane := part.lane,
    position := part.teamPosition,
    champion_id := part.championId, champion_name := part.championName,
    kills := part.kills.getD 0, deaths := part.deaths.getD 0,
    assists := part.assists.getD 0,
    cs := part.totalMinionsKilled.getD 0 + part.neutralMinionsKilled.getD 0,
    gold_earned := part.goldEarned, gold_spent := part.goldSpent,
    dmg_to_champs := part.totalDamageDealtToChampions,
    dmg_taken := part.totalDamageTaken,
    vision_score := part.visionScore, wards_placed := part.wardsPlaced,
    wards_killed := part.wardsKilled, turret_kills := part.turretKills,
    time_dead_s := part.totalTimeSpentDead,
    game_start_ts := some ts, queue_id := info.queueId }

/-- `insert_player_match_stats(conn, puuid, match_id, match_json)`
(src/ingest.py lines 177-246): returns `False` with no write when the
participant is missing or the start timestamp is absent/non-numeric, else
performs `INSERT OR IGNORE INTO player_match_stats` and returns `True`. -/
def insert_player_match_stats (db : DB) (pu : Puuid) (mid : MatchId)
    (info : MatchInfo) : DB × Bool :=
  match find_participant info pu, msToSec info.gameStartTimestamp with
  | some part, some ts =>
    (if stat_exists db pu mid then db
     else { db with player_match_stats :=
              db.player_match_stats ++ [mkStatRow pu mid info part ts] },
     true)
  | _, _ => (db, false)

/-! ## Configuration, upstream oracle, and the ingest loop -/

/-- One entry of `cfg["players"]`. `overridesEnabledQueues` is the id set of
`player["overrides"]["enabled_queues"]`; `none` covers both an absent and a
falsy (empty) override, which the code treats alike. -/
structure PlayerCfg where
  riot_id : String
  platform : String
  overridesEnabledQueues : Option (List Int)
deriving DecidableEq

/-- The configuration fields `ingest` reads, with `routingOf` standing for
`cfg["riot"]["regions"][platform]["routing"]` (`none` = `KeyError`). -/
structure Cfg where
  players : List PlayerCfg
  enabledQueues : List Int
  lookbackDays : Nat
  maxMatchesPerPlayer : Nat
  routingOf : String → Option String

/-- `enabled_queue_ids(cfg, player)` (src/ingest.py lines 73-77): the
entity-level override set when present (and truthy), else the global set. -/
def enabled_queue_ids (cfg : Cfg) (p : Option PlayerCfg) : List Int :=
  match p with
  | some pl => pl.overridesEnabledQueues.getD cfg.enabledQueues
  | none => cfg.enabledQueues

/-- The skip test `queue_id is not None and queue_id not in enabled`
(src/ingest.py lines 296 and 317). -/
def queueSkipped (q : Option Int) (enabled : List Int) : Bool :=
  match q with
  | some v => !(enabled.contains v)
  | none => false

/-- The upstream API as a deterministic oracle: account lookup, match-id
listing (as a function of puuid, start time, end time and count), and match
payloads. A run in which every upstream call succeeds is a run of this
oracle; upstream failures are covered by the per-entity failure oracle of
`runEntity`. -/
structure Upstream where
  puuidOf : String → Puuid
  matchIds : Puuid → Nat → Nat → Nat → List MatchId
  payload : MatchId → MatchInfo

/-- The counters `ingest` returns (src/ingest.py lines 256-258, 339-343). -/
structure Counters where
  newMatches : Nat
  newPlayerRows : Nat
  skippedByQueue : Nat
deriving DecidableEq

/-- One iteration of the `for match_id in match_ids` loop of `ingest`
(src/ingest.py lines 291-323). The `with conn:` block around the two inserts
makes each iteration's writes one transaction, so an iteration either applies
all its writes or none — this function is that atomic step. -/
def processMatch (up : Upstream) (pu : Puuid) (routing : String) (now : Nat)
    (enabled : List Int) (st : DB × Counters) (mid : MatchId) : DB × Counters :=
  let db := st.1
  let c := st.2
  if match_exists db mid then
    if stat_exists db pu mid then (db, c)
    else
      let info := up.payload mid
      if queueSkipped info.queueId enabled then
        (db, { c with skippedByQueue := c.skippedByQueue + 1 })
      else
        let res := insert_player_match_stats db pu mid info
        (res.1, { c with newPlayerRows := c.newPlayerRows + (if res.2 then 1 else 0) })
  else
    let info := up.payload mid
    if queueSkipped info.queueId enabled then
      (db, { c with skippedByQueue := c.skippedByQueue + 1 })
    else
      let db1 := insert_match_row db mid routing info now
      let res := insert_player_match_stats db1 pu mid info
      (res.1, { c with newMatches := c.newMatches + 1,
                       newPlayerRows := c.newPlayerRows + (if res.2 then 1 else 0) })

/-- `start_time = checkpoint if checkpoint is not None else now - lookback`
(src/ingest.py lines 252-253 and 276-277). -/
def window_start (db : DB) (pu : Puuid) (now : Nat) (lookbackDays : Nat) : Nat :=
  (get_checkpoint db pu).getD (now - lookbackDays * 24 * 60 * 60)

/-- The state threaded through a run: the database, the counters, and the
trace of `set_checkpoint` calls performed (arguments, in order). -/
structure RunState where
  db : DB
  counters : Counters
  checkpointWrites : List (Puuid × Nat)
deriving DecidableEq

/-- One iteration of the `for p in cfg.get("players", [])` loop of `ingest`
(src/ingest.py lines 262-337). `failAt p.riot_id = some k` means an exception
interrupts that entity's `try` block after `k` candidate matches were fully
processed (covering failures of `get_puuid`, `get_match_ids`, `get_match`,
a mid-transaction crash — rolled back, hence "fully processed" — and of the
first `set_checkpoint`); the `except` handler prints and `continue`s, so on
that path neither `set_checkpoint` call (line 327 nor line 335) takes effect.
`failAt p.riot_id = none` is the success path, which reaches both
`set_checkpoint` calls. A missing routing entry raises `KeyError` before any
work (line 268) and is likewise caught. -/
def runEntity (up : Upstream) (cfg : Cfg) (failAt : String → Option Nat)
    (now : Nat) (st : RunState) (p : PlayerCfg) : RunState :=
  match cfg.routingOf p.platform with
  | none => st
  | some routing =>
    let pu := up.puuidOf p.riot_id
    let start_time := window_start st.db pu now cfg.lookbackDays
    let end_time := now
    let mids := up.matchIds pu start_time end_time (min cfg.maxMatchesPerPlayer 100)
    let enabled := enabled_queue_ids cfg (some p)
    match failAt p.riot_id with
    | some k =>
      let res := (mids.take k).foldl (processMatch up pu routing now enabled)
        (st.db, st.counters)
      { db := res.1, counters := res.2, checkpointWrites := st.checkpointWrites }
    | none =>
      let res := mids.foldl (processMatch up pu routing now enabled)
        (st.db, st.counters)
      let db1 := set_checkpoint res.1 pu end_time now
      let db2 := set_checkpoint db1 pu end_time now
      { db := db2, counters := res.2,
        checkpointWrites := st.checkpointWrites ++ [(pu, end_time), (pu, end_time)] }

/-- `ingest(cfg, conn, api_key)` (src/ingest.py lines 250-343): `now` is
sampled once, then each configured player is processed in order. -/
def ingest (up : Upstream) (cfg : Cfg) (failAt : String → Option Nat)
    (now : Nat) (db : DB) : RunState :=
  cfg.players.foldl (runEntity up cfg failAt now) ⟨db, ⟨0, 0, 0⟩, []⟩

/-! ## Basic frame lemmas for the ingest operations -/

lemma insert_match_row_player_match_stats (db : DB) (mid : MatchId)
    (routing : String) (info : MatchInfo) (now : Nat) :
    (insert_match_row db mid routing info now).player_match_stats =
      db.player_match_stats := by
  unfold insert_match_row
  split <;> rfl

lemma insert_match_row_ingest_state (db : DB) (mid : MatchId)
    (routing : String) (info : MatchInfo) (now : Nat) :
    (insert_match_row db mid routing info now).ingest_state = db.ingest_state := by
  unfold insert_match_row
  split <;> rfl

lemma insert_player_match_stats_matchRows (db : DB) (pu : Puuid)
    (mid : MatchId) (info : MatchInfo) :
    (insert_player_match_stats db pu mid info).1.matchRows = db.matchRows := by
  unfold insert_player_match_stats
  split
  · split <;> rfl
  · rfl

lemma insert_player_match_stats_ingest_state (db : DB) (pu : Puuid)
    (mid : MatchId) (info : MatchInfo) :
    (insert_player_match_stats db pu mid info).1.ingest_state =
      db.ingest_state := by
  unfold insert_player_match_stats
  split
  · split <;> rfl
  · rfl

lemma set_checkpoint_matchRows (db : DB) (pu : Puuid) (endTs now : Nat) :
    (set_checkpoint db pu endTs now).matchRows = db.matchRows := by
  unfold set_checkpoint
  split <;> rfl

lemma set_checkpoint_player_match_stats (db : DB) (pu : Puuid) (endTs now : Nat) :
    (set_checkpoint db pu endTs now).player_match_stats =
      db.player_match_stats := by
  unfold set_checkpoint
  split <;> rfl

lemma processMatch_ingest_state (up : Upstream) (pu : Puuid) (routing : String)
    (now : Nat) (enabled : List Int) (st : DB × Counters) (mid : MatchId) :
    (processMatch up pu routing now enabled st mid).1.ingest_state =
      st.1.ingest_state := by
  unfold processMatch
  dsimp only
  split
  · split
    · rfl
    · split
      · rfl
      · exact insert_player_match_stats_ingest_state _ _ _ _
  · split
    · rfl
    · rw [insert_player_match_stats_ingest_state, insert_match_row_ingest_state]

lemma foldl_processMatch_ingest_state (up : Upstream) (pu : Puuid)
    (routing : String) (now : Nat) (enabled : List Int) (mids : List MatchId) :
    ∀ st : DB × Counters,
      ((mids.foldl (processMatch up pu routing now enabled) st).1).ingest_state =
        st.1.ingest_state := by
  induction mids with
  | nil => intro st; rfl
  | cons hd tl ih =>
    intro st
    rw [List.foldl_cons, ih, processMatch_ingest_state]

lemma find?_map_cursor (l : List CursorRow) (pu : Puuid) (endTs now : Nat) :
    (l.map (fun r => if r.puuid == pu then (⟨r.puuid, endTs, now⟩ : CursorRow)
        else r)).find? (fun r => r.puuid == pu) =
      (l.find? (fun r => r.puuid == pu)).map
        (fun r => (⟨r.puuid, endTs, now⟩ : CursorRow)) := by
  induction l with
  | nil => rfl
  | cons hd tl ih =>
    by_cases h : hd.puuid = pu
    · simp [h]
    · have hb : (hd.puuid == pu) = false := by simp [h]
      simp only [List.map_cons, List.find?_cons, hb]
      simpa [hb] using ih

/-- Reading the checkpoint back right after `set_checkpoint` gives the value
just written. -/
lemma get_checkpoint_set_checkpoint (db : DB) (pu : Puuid) (endTs now : Nat) :
    get_checkpoint (set_checkpoint db pu endTs now) pu = some endTs := by
  unfold get_checkpoint set_checkpoint
  by_cases h : (db.ingest_state.find? (fun r => r.puuid == pu)).isSome
  · rw [if_pos h]
    simp only
    rw [find?_map_cursor]
    obtain ⟨r, hr⟩ := Option.isSome_iff_exists.mp h
    simp [hr]
  · rw [if_neg h]
    simp only
    rw [List.find?_append]
    have hnone : db.ingest_state.find? (fun r => r.puuid == pu) = none :=
      Option.not_isSome_iff_eq_none.mp h
    simp [hnone]

/-! ## C1 — checkpoint writes per entity per run -/

/-- An empty `info` payload (a match whose payload carries nothing). -/
def infoEmpty : MatchInfo := ⟨none, none, none, none, none, none, []⟩

/-- A one-player configuration: global enabled set {420}, defaults for the
tunables, every platform routed. -/
def cfgA : Cfg :=
  { players := [⟨"Alice#EUW", "euw1", none⟩], enabledQueues := [420],
    lookbackDays := 7, maxMatchesPerPlayer := 70,
    routingOf := fun _ => some "europe" }

/-- An upstream with no matches at all. -/
def upNoMatches : Upstream := ⟨fun _ => "PU", fun _ _ _ _ => [], fun _ => infoEmpty⟩

/-- C1 counterexample: in a run whose single entity succeeds, the checkpoint
is written twice (lines 326-327 and 334-335 of src/ingest.py both run), and
in a run where that entity's iteration raises, it is written zero times — in
neither case exactly once as the claim states. -/
theorem checkpoint_written_twice_or_not_at_all :
    (ingest upNoMatches cfgA (fun _ => none) 1000 ⟨[], [], []⟩).checkpointWrites.length = 2 ∧
    (ingest upNoMatches cfgA (fun _ => some 0) 1000 ⟨[], [], []⟩).checkpointWrites.length = 0 := by
  decide

/-- C1 amended: for an entity whose platform has a routing entry, the
checkpoint is written twice — both times with the `end` value computed for
that run — when the entity's iteration completes, and zero times when an
exception interrupts it. -/
theorem runEntity_checkpoint_writes (up : Upstream) (cfg : Cfg)
    (failAt : String → Option Nat) (now : Nat) (st : RunState) (p : PlayerCfg)
    (routing : String) (hroute : cfg.routingOf p.platform = some routing) :
    (failAt p.riot_id = none →
      (runEntity up cfg failAt now st p).checkpointWrites =
        st.checkpointWrites ++
          [(up.puuidOf p.riot_id, now), (up.puuidOf p.riot_id, now)]) ∧
    (failAt p.riot_id ≠ none →
      (runEntity up cfg failAt now st p).checkpointWrites =
        st.checkpointWrites) := by
  constructor
  · intro hf
    unfold runEntity
    rw [hroute]
    simp only [hf]
  · intro hf
    rcases hk : failAt p.riot_id with _ | k
    · exact absurd hk hf
    · unfold runEntity
      rw [hroute]
      simp only [hk]

/-- Witness for C1's amended theorem at a concrete run. -/
theorem runEntity_checkpoint_writes_witness :
    (runEntity upNoMatches cfgA (fun _ => none) 5
        ⟨⟨[], [], []⟩, ⟨0, 0, 0⟩, []⟩ ⟨"Alice#EUW", "euw1", none⟩).checkpointWrites =
      [] ++ [("PU", 5), ("PU", 5)] :=
  (runEntity_checkpoint_writes upNoMatches cfgA (fun _ => none) 5
    ⟨⟨[], [], []⟩, ⟨0, 0, 0⟩, []⟩ ⟨"Alice#EUW", "euw1", none⟩ "europe" rfl).1 rfl

/-! ## C7 — checkpoint monotonicity and the next run's window -/

/-- C7 counterexample: an entity has checkpoint 100; a run at `now = 200`
fails for that entity, so the checkpoint stays 100, and the next run's fetch
window starts at 100, not at the failed run's `end` of 200. -/
theorem window_start_after_failed_run_counterexample :
    window_start
        (ingest upNoMatches cfgA (fun _ => some 0) 200
          ⟨[], [], [⟨"PU", 100, 0⟩]⟩).db "PU" 300 7 = 100 ∧
      (100 : Nat) ≠ 200 := by
  decide

/-- C7 amended: if the stored checkpoint is `c` and the run's `now` is ≥ `c`,
then after the entity's iteration the checkpoint is still present and ≥ `c`
(on every path); when the iteration completes without an exception the
checkpoint equals the run's `end = now`, so every later run's fetch window
starts exactly at that `end`; and whenever no checkpoint is stored the window
start falls back to `now - lookback_days·24·60·60`. -/
theorem runEntity_checkpoint_monotone (up : Upstream) (cfg : Cfg)
    (failAt : String → Option Nat) (now : Nat) (st : RunState) (p : PlayerCfg)
    (c : Nat) (hcp : get_checkpoint st.db (up.puuidOf p.riot_id) = some c)
    (hnow : c ≤ now) :
    (∃ c', get_checkpoint (runEntity up cfg failAt now st p).db
        (up.puuidOf p.riot_id) = some c' ∧ c ≤ c') ∧
    (failAt p.riot_id = none → ∀ routing, cfg.routingOf p.platform = some routing →
      get_checkpoint (runEntity up cfg failAt now st p).db
          (up.puuidOf p.riot_id) = some now ∧
      ∀ now2 lb, window_start (runEntity up cfg failAt now st p).db
          (up.puuidOf p.riot_id) now2 lb = now) ∧
    (∀ db2 pu2 now2 lb2, get_checkpoint db2 pu2 = none →
      window_start db2 pu2 now2 lb2 = now2 - lb2 * 24 * 60 * 60) := by
  have hsucc : ∀ routing, cfg.routingOf p.platform = some routing →
      failAt p.riot_id = none →
      get_checkpoint (runEntity up cfg failAt now st p).db
        (up.puuidOf p.riot_id) = some now := by
    intro routing hroute hf
    unfold runEntity
    rw [hroute]
    simp only [hf]
    exact get_checkpoint_set_checkpoint _ _ _ _
  refine ⟨?_, ?_, ?_⟩
  · rcases hroute : cfg.routingOf p.platform with _ | routing
    · refine ⟨c, ?_, le_refl c⟩
      unfold runEntity
      rw [hroute]
      exact hcp
    · rcases hf : failAt p.riot_id with _ | k
      · exact ⟨now, hsucc routing hroute hf, hnow⟩
      · refine ⟨c, ?_, le_refl c⟩
        unfold runEntity
        rw [hroute]
        simp only [hf]
        unfold get_checkpoint at hcp ⊢
        rw [foldl_processMatch_ingest_state]
        exact hcp
  · intro hf routing hroute
    refine ⟨hsucc routing hroute hf, ?_⟩
    intro now2 lb
    unfold window_start
    rw [hsucc routing hroute hf]
    rfl
  · intro db2 pu2 now2 lb2 h
    unfold window_start
    rw [h]
    rfl

/-- Witness for C7's amended theorem at a concrete run. -/
theorem runEntity_checkpoint_monotone_witness :
    (∃ c', get_checkpoint (runEntity upNoMatches cfgA (fun _ => none) 200
        ⟨⟨[], [], [⟨"PU", 100, 0⟩]⟩, ⟨0, 0, 0⟩, []⟩
        ⟨"Alice#EUW", "euw1", none⟩).db "PU" = some c' ∧ 100 ≤ c') :=
  (runEntity_checkpoint_monotone upNoMatches cfgA (fun _ => none) 200
    ⟨⟨[], [], [⟨"PU", 100, 0⟩]⟩, ⟨0, 0, 0⟩, []⟩
    ⟨"Alice#EUW", "euw1", none⟩ 100 rfl (by decide)).1

/-! ## C10 — the skip conditions of `insert_player_match_stats` -/

lemma insert_player_match_stats_false (db : DB) (pu : Puuid) (mid : MatchId)
    (info : MatchInfo)
    (h : find_participant info pu = none ∨ msToSec info.gameStartTimestamp = none) :
    insert_player_match_stats db pu mid info = (db, false) := by
  unfold insert_player_match_stats
  rcases h with h | h
  · rw [h]
  · rw [h]
    cases find_participant info pu <;> rfl

lemma insert_player_match_stats_true (db : DB) (pu : Puuid) (mid : MatchId)
    (info : MatchInfo) (part : Participant) (ts : Int)
    (hf : find_participant info pu = some part)
    (hm : msToSec info.gameStartTimestamp = some ts) :
    insert_player_match_stats db pu mid info =
      (if stat_exists db pu mid then db
       else { db with player_match_stats :=
                db.player_match_stats ++ [mkStatRow pu mid info part ts] },
       true) := by
  unfold insert_player_match_stats
  rw [hf, hm]

/-- C10: `insert_player_match_stats` inserts nothing and returns `False`
exactly when no participant of the payload carries the target puuid or the
payload's `gameStartTimestamp` is absent or non-numeric — so a genuine
participant can still be skipped for want of a start timestamp; in every
other case it performs the `INSERT OR IGNORE` attempt and returns `True`. -/
theorem insert_player_match_stats_skip_spec (db : DB) (pu : Puuid)
    (mid : MatchId) (info : MatchInfo) :
    ((insert_player_match_stats db pu mid info).2 = false ↔
      find_participant info pu = none ∨
        msToSec info.gameStartTimestamp = none) ∧
    ((insert_player_match_stats db pu mid info).2 = false →
      (insert_player_match_stats db pu mid info).1 = db) ∧
    ((insert_player_match_stats db pu mid info).2 = true →
      ∃ part ts, find_participant info pu = some part ∧
        msToSec info.gameStartTimestamp = some ts ∧
        (insert_player_match_stats db pu mid info).1 =
          (if stat_exists db pu mid then db
           else { db with player_match_stats :=
                    db.player_match_stats ++ [mkStatRow pu mid info part ts] })) := by
  rcases hf : find_participant info pu with _ | part
  · have heq := insert_player_match_stats_false db pu mid info (Or.inl hf)
    rw [heq]
    refine ⟨by simp, fun _ => rfl, ?_⟩
    intro h
    exact absurd h (by simp)
  · rcases hm : msToSec info.gameStartTimestamp with _ | ts
    · have heq := insert_player_match_stats_false db pu mid info (Or.inr hm)
      rw [heq]
      refine ⟨by simp [hf, hm], fun _ => rfl, ?_⟩
      intro h
      exact absurd h (by simp)
    · have heq := insert_player_match_stats_true db pu mid info part ts hf hm
      rw [heq]
      refine ⟨by simp [hf, hm], ?_, ?_⟩
      · intro h
        exact absurd h (by simp)
      · intro _
        exact ⟨part, ts, rfl, rfl, rfl⟩

/-- Witness for C10: at the empty payload, the call returns `False` and the
database is unchanged. -/
theorem insert_player_match_stats_skip_spec_witness :
    (insert_player_match_stats ⟨[], [], []⟩ "PU" "M1" infoEmpty).2 = false ∧
    (insert_player_match_stats ⟨[], [], []⟩ "PU" "M1" infoEmpty).1 = ⟨[], [], []⟩ :=
  ⟨by decide,
   (insert_player_match_stats_skip_spec ⟨[], [], []⟩ "PU" "M1" infoEmpty).2.1 (by decide)⟩

/-! ## C2 — one transaction, but a Match row can commit without a stat row -/

/-- An upstream with one match `M1` in the enabled queue 420 whose payload
has an empty participant list (the tracked entity did not play in it). -/
def upOrphan : Upstream :=
  ⟨fun _ => "PU", fun _ _ _ _ => ["M1"],
   fun _ => ⟨some 420, some (.num 1000), none, none, none, none, []⟩⟩

/-- C2 counterexample: ingesting `M1` (category-accepted, no matching
participant) commits the Match row with no EntityMatchStat row for the
ingesting entity — the "never a Match row without its stat row" part of the
claim is false. -/
theorem match_row_without_stat_counterexample :
    match_exists (ingest upOrphan cfgA (fun _ => none) 50 ⟨[], [], []⟩).db "M1" = true ∧
    stat_exists (ingest upOrphan cfgA (fun _ => none) 50 ⟨[], [], []⟩).db "PU" "M1" = false := by
  decide

lemma match_exists_insert_match_row_self (db : DB) (mid : MatchId)
    (routing : String) (info : MatchInfo) (now : Nat) :
    match_exists (insert_match_row db mid routing info now) mid = true := by
  unfold insert_match_row
  dsimp only
  split
  · assumption
  · unfold match_exists
    simp [List.any_append]

lemma match_exists_insert_player_match_stats (db : DB) (pu : Puuid)
    (mid mid' : MatchId) (info : MatchInfo) :
    match_exists (insert_player_match_stats db pu mid info).1 mid' =
      match_exists db mid' := by
  unfold match_exists
  rw [insert_player_match_stats_matchRows]

lemma stat_exists_insert_match_row (db : DB) (mid : MatchId) (routing : String)
    (info : MatchInfo) (now : Nat) (pu : Puuid) (mid' : MatchId) :
    stat_exists (insert_match_row db mid routing info now) pu mid' =
      stat_exists db pu mid' := by
  unfold stat_exists
  rw [insert_match_row_player_match_stats]

lemma stat_exists_append_self (db : DB) (pu : Puuid) (mid : MatchId)
    (row : StatRow) (hpu : row.puuid = pu) (hmid : row.match_id = mid) :
    stat_exists
      { db with player_match_stats := db.player_match_stats ++ [row] } pu mid =
      true := by
  unfold stat_exists
  simp [List.any_append, hpu, hmid]

/-- C2 amended: the Match insert and the stat insert of one candidate run in
one transaction (one `processMatch` step); after a step on a category-accepted
candidate whose Match row was absent (and whose stat row was absent), the
Match row is always present, and the stat row is present iff the entity's
participation data resolved — a matching participant was found and the start
timestamp was numeric. -/
theorem processMatch_transaction_shape (up : Upstream) (pu : Puuid)
    (routing : String) (now : Nat) (enabled : List Int) (db : DB) (c : Counters)
    (mid : MatchId)
    (habs : match_exists db mid = false)
    (hq : queueSkipped (up.payload mid).queueId enabled = false)
    (hstat : stat_exists db pu mid = false) :
    match_exists (processMatch up pu routing now enabled (db, c) mid).1 mid = true ∧
    (stat_exists (processMatch up pu routing now enabled (db, c) mid).1 pu mid = true ↔
      (find_participant (up.payload mid) pu).isSome ∧
        (msToSec (up.payload mid).gameStartTimestamp).isSome) := by
  unfold processMatch
  dsimp only
  rw [habs, hq]
  simp only [if_neg Bool.false_ne_true]
  rcases hf : find_participant (up.payload mid) pu with _ | part
  · rw [insert_player_match_stats_false _ _ _ _ (Or.inl hf)]
    refine ⟨match_exists_insert_match_row_self db mid routing (up.payload mid) now, ?_⟩
    rw [stat_exists_insert_match_row, hstat]
    simp [hf]
  · rcases hm : msToSec (up.payload mid).gameStartTimestamp with _ | ts
    · rw [insert_player_match_stats_false _ _ _ _ (Or.inr hm)]
      refine ⟨match_exists_insert_match_row_self db mid routing (up.payload mid) now, ?_⟩
      rw [stat_exists_insert_match_row, hstat]
      simp [hf, hm]
    · rw [insert_player_match_stats_true _ _ _ _ part ts hf hm]
      have hstat1 : stat_exists (insert_match_row db mid routing (up.payload mid) now) pu mid = false := by
        rw [stat_exists_insert_match_row]
        exact hstat
      rw [hstat1]
      simp only [if_neg Bool.false_ne_true]
      constructor
      · exact match_exists_insert_match_row_self db mid routing (up.payload mid) now
      · rw [stat_exists_append_self _ pu mid _ rfl rfl]
        simp [hf, hm]

/-- Witness for C2's amended theorem at the orphan payload. -/
theorem processMatch_transaction_shape_witness :
    match_exists (processMatch upOrphan "PU" "europe" 50 [420]
        (⟨[], [], []⟩, ⟨0, 0, 0⟩) "M1").1 "M1" = true ∧
    (stat_exists (processMatch upOrphan "PU" "europe" 50 [420]
        (⟨[], [], []⟩, ⟨0, 0, 0⟩) "M1").1 "PU" "M1" = true ↔
      (find_participant (upOrphan.payload "M1") "PU").isSome ∧
        (msToSec (upOrphan.payload "M1").gameStartTimestamp).isSome) :=
  processMatch_transaction_shape upOrphan "PU" "europe" 50 [420] ⟨[], [], []⟩
    ⟨0, 0, 0⟩ "M1" (by decide) (by decide) (by decide)

/-! ## C3 — the category (queue) filter -/

/-- An upstream with one match `M1` whose payload is in queue 999 (not in
`cfgA`'s enabled set {420}) and in which "PU" did play. -/
def upQ999 : Upstream :=
  ⟨fun _ => "PU", fun _ _ _ _ => ["M1"],
   fun _ => ⟨some 999, some (.num 1000), none, none, none, none,
     [⟨"PU", some true, none, none, none, none, none, none, none, none, none,
       none, none, none, none, none, none, none, none, none, none, none⟩]⟩⟩

/-- A pre-existing `matches` row for `M1` (queue 999), as left by another
entity's earlier ingestion. -/
def matchRowM1 : MatchRow :=
  { match_id := "M1", routing := "europe", queue_id := some 999,
    game_start_ts := some 1, duration_s := none, game_mode := none,
    game_type := none, map_id := none, ingested_at := 0 }

/-- A pre-existing `player_match_stats` row for ("PU", "M1"), as left by an
earlier run in which queue 999 was still enabled. -/
def statRowPM1 : StatRow :=
  { puuid := "PU", match_id := "M1", win := 1, team_id := none, role := none,
    lane := none, position := none, champion_id := none, champion_name := none,
    kills := 0, deaths := 0, assists := 0, cs := 0, gold_earned := none,
    gold_spent := none, dmg_to_champs := none, dmg_taken := none,
    vision_score := none, wards_placed := none, wards_killed := none,
    turret_kills := none, time_dead_s := none, game_start_ts := some 1,
    queue_id := some 999 }

/-- C3 counterexample: candidate `M1` has queue 999, outside the effective
enabled set {420}; the Match row and the entity's stat row already exist, so
the run takes the early `continue` (src/ingest.py lines 307-313) and the
skipped-by-category counter is NOT incremented, contradicting the claim's
"increments the skipped-by-category counter regardless". -/
theorem category_skip_counter_counterexample :
    queueSkipped (upQ999.payload "M1").queueId
        (enabled_queue_ids cfgA (some ⟨"Alice#EUW", "euw1", none⟩)) = true ∧
    (ingest upQ999 cfgA (fun _ => none) 50
        ⟨[matchRowM1], [statRowPM1], []⟩).counters.skippedByQueue = 0 ∧
    (ingest upQ999 cfgA (fun _ => none) 50
        ⟨[matchRowM1], [statRowPM1], []⟩).db.player_match_stats = [statRowPM1] := by
  decide

/-- C3 amended: for a candidate whose queue id is outside the effective
enabled set, the processing step persists nothing at all (the database is
unchanged, so no EntityMatchStat row and no Match row), and it increments the
skipped-by-category counter — unless the entity's stat row for that match
already exists, in which case the candidate is skipped early without touching
the counter. -/
theorem processMatch_category_filter (up : Upstream) (pu : Puuid)
    (routing : String) (now : Nat) (enabled : List Int) (db : DB) (c : Counters)
    (mid : MatchId)
    (hq : queueSkipped (up.payload mid).queueId enabled = true) :
    ((processMatch up pu routing now enabled (db, c) mid).1 = db) ∧
    (stat_exists db pu mid = false →
      (processMatch up pu routing now enabled (db, c) mid).2.skippedByQueue =
        c.skippedByQueue + 1) ∧
    (match_exists db mid = true → stat_exists db pu mid = true →
      (processMatch up pu routing now enabled (db, c) mid).2 = c) := by
  unfold processMatch
  dsimp only
  rcases hme : match_exists db mid with _ | _
  · simp only [if_neg Bool.false_ne_true, hq, if_pos rfl]
    exact ⟨rfl, fun _ => rfl, fun hme' _ => absurd hme' (by simp [hme])⟩
  · simp only [if_pos rfl]
    rcases hse : stat_exists db pu mid with _ | _
    · simp only [if_neg Bool.false_ne_true, hq, if_pos rfl]
      exact ⟨rfl, fun _ => rfl, fun _ hse' => absurd hse' (by simp [hse])⟩
    · simp only [if_pos rfl]
      exact ⟨rfl, fun hse' => absurd hse' (by simp [hse]), fun _ _ => rfl⟩

/-- Witness for C3's amended theorem: the early-`continue` case at concrete
inputs. -/
theorem processMatch_category_filter_witness :
    ((processMatch upQ999 "PU" "europe" 50 [420]
        (⟨[matchRowM1], [statRowPM1], []⟩, ⟨0, 0, 0⟩) "M1").1 =
      ⟨[matchRowM1], [statRowPM1], []⟩) ∧
    ((processMatch upQ999 "PU" "europe" 50 [420]
        (⟨[matchRowM1], [statRowPM1], []⟩, ⟨0, 0, 0⟩) "M1").2 = ⟨0, 0, 0⟩) :=
  ⟨(processMatch_category_filter upQ999 "PU" "europe" 50 [420]
      ⟨[matchRowM1], [statRowPM1], []⟩ ⟨0, 0, 0⟩ "M1" (by decide)).1,
   (processMatch_category_filter upQ999 "PU" "europe" 50 [420]
      ⟨[matchRowM1], [statRowPM1], []⟩ ⟨0, 0, 0⟩ "M1" (by decide)).2.2
     (by decide) (by decide)⟩

/-! ## C6 — idempotency of re-ingestion

Strategy: a database grows monotonically during a run (`dbGrows`); after a
candidate `(entity, match)` has been processed once it is `settled` — any
further processing of that pair is a no-op on the database — and settledness
is preserved as the database grows. A second run over an unchanged upstream
processes only settled pairs, hence changes neither row table. -/

/-- Rows are only ever added: every Match row and stat row visible in `db`
is visible in `db'`. -/
def dbGrows (db db' : DB) : Prop :=
  (∀ mid, match_exists db mid = true → match_exists db' mid = true) ∧
  (∀ pu mid, stat_exists db pu mid = true → stat_exists db' pu mid = true)

lemma dbGrows_refl (db : DB) : dbGrows db db :=
  ⟨fun _ h => h, fun _ _ h => h⟩

lemma dbGrows_trans {a b c : DB} (h1 : dbGrows a b) (h2 : dbGrows b c) :
    dbGrows a c :=
  ⟨fun mid h => h2.1 mid (h1.1 mid h), fun pu mid h => h2.2 pu mid (h1.2 pu mid h)⟩

lemma set_checkpoint_grows (db : DB) (pu : Puuid) (endTs now : Nat) :
    dbGrows db (set_checkpoint db pu endTs now) := by
  constructor
  · intro mid h
    unfold match_exists at h ⊢
    rw [set_checkpoint_matchRows]
    exact h
  · intro pu' mid h
    unfold stat_exists at h ⊢
    rw [set_checkpoint_player_match_stats]
    exact h

lemma insert_player_match_stats_stat_mono (db : DB) (pu : Puuid) (mid : MatchId)
    (info : MatchInfo) (pu' : Puuid) (mid' : MatchId)
    (h : stat_exists db pu' mid' = true) :
    stat_exists (insert_player_match_stats db pu mid info).1 pu' mid' = true := by
  rcases hf : find_participant info pu with _ | part
  · rw [insert_player_match_stats_false db pu mid info (Or.inl hf)]
    exact h
  · rcases hm : msToSec info.gameStartTimestamp with _ | ts
    · rw [insert_player_match_stats_false db pu mid info (Or.inr hm)]
      exact h
    · rw [insert_player_match_stats_true db pu mid info part ts hf hm]
      dsimp only
      split
      · exact h
      · unfold stat_exists at h ⊢
        simp [List.any_append, h]

lemma insert_player_match_stats_success_stat (db : DB) (pu : Puuid)
    (mid : MatchId) (info : MatchInfo) (part : Participant) (ts : Int)
    (hf : find_participant info pu = some part)
    (hm : msToSec info.gameStartTimestamp = some ts) :
    stat_exists (insert_player_match_stats db pu mid info).1 pu mid = true := by
  rw [insert_player_match_stats_true db pu mid info part ts hf hm]
  dsimp only
  split
  · assumption
  · exact stat_exists_append_self db pu mid _ rfl rfl

lemma match_exists_insert_match_row_mono (db : DB) (mid : MatchId)
    (routing : String) (info : MatchInfo) (now : Nat) (mid' : MatchId)
    (h : match_exists db mid' = true) :
    match_exists (insert_match_row db mid routing info now) mid' = true := by
  unfold insert_match_row
  dsimp only
  split
  · exact h
  · unfold match_exists at h ⊢
    simp [List.any_append, h]

lemma processMatch_grows (up : Upstream) (pu : Puuid) (routing : String)
    (now : Nat) (enabled : List Int) (st : DB × Counters) (mid : MatchId) :
    dbGrows st.1 (processMatch up pu routing now enabled st mid).1 := by
  unfold processMatch
  dsimp only
  split
  · split
    · exact dbGrows_refl _
    · split
      · exact dbGrows_refl _
      · constructor
        · intro mid' h
          rw [match_exists_insert_player_match_stats]
          exact h
        · intro pu' mid' h
          exact insert_player_match_stats_stat_mono _ _ _ _ _ _ h
  · split
    · exact dbGrows_refl _
    · constructor
      · intro mid' h
        rw [match_exists_insert_player_match_stats]
        exact match_exists_insert_match_row_mono _ _ _ _ _ _ h
      · intro pu' mid' h
        apply insert_player_match_stats_stat_mono
        rw [stat_exists_insert_match_row]
        exact h

/-- A candidate `(pu, mid)` is settled in `db`: re-processing it cannot
change the database. Either its category is filtered for this entity, or both
its rows are present, or its Match row is present and the entity's
participation data does not resolve (so the stat insert declines). -/
def settled (up : Upstream) (pu : Puuid) (enabled : List Int) (mid : MatchId)
    (db : DB) : Prop :=
  queueSkipped (up.payload mid).queueId enabled = true
  ∨ (match_exists db mid = true ∧ stat_exists db pu mid = true)
  ∨ (match_exists db mid = true ∧
      (find_participant (up.payload mid) pu = none ∨
        msToSec (up.payload mid).gameStartTimestamp = none))

lemma settled_mono (up : Upstream) (pu : Puuid) (enabled : List Int)
    (mid : MatchId) {db db' : DB} (hg : dbGrows db db')
    (h : settled up pu enabled mid db) : settled up pu enabled mid db' := by
  rcases h with h | ⟨h1, h2⟩ | ⟨h1, h2⟩
  · exact Or.inl h
  · exact Or.inr (Or.inl ⟨hg.1 mid h1, hg.2 pu mid h2⟩)
  · exact Or.inr (Or.inr ⟨hg.1 mid h1, h2⟩)

/-- After one processing step, the candidate is settled. -/
lemma processMatch_settles (up : Upstream) (pu : Puuid) (routing : String)
    (now : Nat) (enabled : List Int) (st : DB × Counters) (mid : MatchId) :
    settled up pu enabled mid (processMatch up pu routing now enabled st mid).1 := by
  unfold processMatch
  dsimp only
  by_cases hq : queueSkipped (up.payload mid).queueId enabled = true
  · exact Or.inl hq
  · by_cases hme : match_exists st.1 mid = true
    · rw [if_pos hme]
      by_cases hse : stat_exists st.1 pu mid = true
      · rw [if_pos hse]
        exact Or.inr (Or.inl ⟨hme, hse⟩)
      · rw [if_neg hse, if_neg hq]
        rcases hf : find_participant (up.payload mid) pu with _ | part
        · rw [insert_player_match_stats_false _ _ _ _ (Or.inl hf)]
          exact Or.inr (Or.inr ⟨hme, Or.inl hf⟩)
        · rcases hm : msToSec (up.payload mid).gameStartTimestamp with _ | ts
          · rw [insert_player_match_stats_false _ _ _ _ (Or.inr hm)]
            exact Or.inr (Or.inr ⟨hme, Or.inr hm⟩)
          · refine Or.inr (Or.inl ⟨?_, ?_⟩)
            · rw [match_exists_insert_player_match_stats]
              exact hme
            · exact insert_player_match_stats_success_stat _ _ _ _ part ts hf hm
    · rw [if_neg hme, if_neg hq]
      rcases hf : find_participant (up.payload mid) pu with _ | part
      · rw [insert_player_match_stats_false _ _ _ _ (Or.inl hf)]
        exact Or.inr (Or.inr
          ⟨match_exists_insert_match_row_self _ _ _ _ _, Or.inl hf⟩)
      · rcases hm : msToSec (up.payload mid).gameStartTimestamp with _ | ts
        · rw [insert_player_match_stats_false _ _ _ _ (Or.inr hm)]
          exact Or.inr (Or.inr
            ⟨match_exists_insert_match_row_self _ _ _ _ _, Or.inr hm⟩)
        · refine Or.inr (Or.inl ⟨?_, ?_⟩)
          · rw [match_exists_insert_player_match_stats]
            exact match_exists_insert_match_row_self _ _ _ _ _
          · exact insert_player_match_stats_success_stat _ _ _ _ part ts hf hm

/-- Processing a settled candidate leaves the database unchanged. -/
lemma processMatch_settled_id (up : Upstream) (pu : Puuid) (routing : String)
    (now : Nat) (enabled : List Int) (st : DB × Counters) (mid : MatchId)
    (h : settled up pu enabled mid st.1) :
    (processMatch up pu routing now enabled st mid).1 = st.1 := by
  unfold processMatch
  dsimp only
  rcases h with hq | ⟨hme, hse⟩ | ⟨hme, hbad⟩
  · by_cases hme : match_exists st.1 mid = true
    · rw [if_pos hme]
      by_cases hse : stat_exists st.1 pu mid = true
      · rw [if_pos hse]
      · rw [if_neg hse, if_pos hq]
    · rw [if_neg hme, if_pos hq]
  · rw [if_pos hme, if_pos hse]
  · rw [if_pos hme]
    by_cases hse : stat_exists st.1 pu mid = true
    · rw [if_pos hse]
    · rw [if_neg hse]
      by_cases hq : queueSkipped (up.payload mid).queueId enabled = true
      · rw [if_pos hq]
      · rw [if_neg hq, insert_player_match_stats_false _ _ _ _ hbad]

lemma foldl_processMatch_grows (up : Upstream) (pu : Puuid) (routing : String)
    (now : Nat) (enabled : List Int) (mids : List MatchId) :
    ∀ st : DB × Counters,
      dbGrows st.1 ((mids.foldl (processMatch up pu routing now enabled) st).1) := by
  induction mids with
  | nil => intro st; exact dbGrows_refl _
  | cons hd tl ih =>
    intro st
    rw [List.foldl_cons]
    exact dbGrows_trans (processMatch_grows up pu routing now enabled st hd) (ih _)

lemma foldl_processMatch_settles (up : Upstream) (pu : Puuid) (routing : String)
    (now : Nat) (enabled : List Int) (mids : List MatchId) :
    ∀ st : DB × Counters, ∀ mid ∈ mids,
      settled up pu enabled mid
        ((mids.foldl (processMatch up pu routing now enabled) st).1) := by
  induction mids with
  | nil =>
    intro st mid hmem
    exact absurd hmem (List.not_mem_nil _)
  | cons hd tl ih =>
    intro st mid hmem
    rw [List.foldl_cons]
    rcases List.mem_cons.mp hmem with rfl | hmem'
    · exact settled_mono up pu enabled mid (foldl_processMatch_grows up pu routing now enabled tl _)
        (processMatch_settles up pu routing now enabled st mid)
    · exact ih _ mid hmem'

lemma foldl_processMatch_settled_id (up : Upstream) (pu : Puuid)
    (routing : String) (now : Nat) (enabled : List Int) (mids : List MatchId) :
    ∀ st : DB × Counters, (∀ mid ∈ mids, settled up pu enabled mid st.1) →
      ((mids.foldl (processMatch up pu routing now enabled) st).1) = st.1 := by
  induction mids with
  | nil => intro st _; rfl
  | cons hd tl ih =>
    intro st h
    rw [List.foldl_cons]
    have hid := processMatch_settled_id up pu routing now enabled st hd
      (h hd (List.mem_cons_self hd tl))
    have htl : ∀ mid ∈ tl, settled up pu enabled mid
        ((processMatch up pu routing now enabled st hd).1) := by
      intro mid hm
      rw [hid]
      exact h mid (List.mem_cons_of_mem _ hm)
    rw [ih _ htl, hid]

lemma runEntity_grows (up : Upstream) (cfg : Cfg) (failAt : String → Option Nat)
    (now : Nat) (st : RunState) (p : PlayerCfg) :
    dbGrows st.db (runEntity up cfg failAt now st p).db := by
  unfold runEntity
  rcases cfg.routingOf p.platform with _ | routing
  · exact dbGrows_refl _
  · dsimp only
    rcases failAt p.riot_id with _ | k
    · exact dbGrows_trans
        (foldl_processMatch_grows up (up.puuidOf p.riot_id) routing now
          (enabled_queue_ids cfg (some p)) _ (st.db, st.counters))
        (dbGrows_trans (set_checkpoint_grows _ _ _ _) (set_checkpoint_grows _ _ _ _))
    · exact foldl_processMatch_grows up (up.puuidOf p.riot_id) routing now
        (enabled_queue_ids cfg (some p)) _ (st.db, st.counters)

/-- After a successful entity iteration, every candidate of that entity's
fetched list is settled. -/
lemma runEntity_settles (up : Upstream) (cfg : Cfg) (failAt : String → Option Nat)
    (now : Nat) (st : RunState) (p : PlayerCfg) (routing : String)
    (hroute : cfg.routingOf p.platform = some routing)
    (hf : failAt p.riot_id = none) :
    ∀ mid ∈ up.matchIds (up.puuidOf p.riot_id)
        (window_start st.db (up.puuidOf p.riot_id) now cfg.lookbackDays) now
        (min cfg.maxMatchesPerPlayer 100),
      settled up (up.puuidOf p.riot_id) (enabled_queue_ids cfg (some p)) mid
        (runEntity up cfg failAt now st p).db := by
  intro mid hmem
  unfold runEntity
  rw [hroute]
  dsimp only
  rw [hf]
  exact settled_mono _ _ _ _
    (dbGrows_trans (set_checkpoint_grows _ _ _ _) (set_checkpoint_grows _ _ _ _))
    (foldl_processMatch_settles up (up.puuidOf p.riot_id) routing now
      (enabled_queue_ids cfg (some p)) _ (st.db, st.counters) mid hmem)

lemma foldl_runEntity_grows (up : Upstream) (cfg : Cfg)
    (failAt : String → Option Nat) (now : Nat) (ps : List PlayerCfg) :
    ∀ st : RunState,
      dbGrows st.db ((ps.foldl (runEntity up cfg failAt now) st).db) := by
  induction ps with
  | nil => intro st; exact dbGrows_refl _
  | cons hd tl ih =>
    intro st
    rw [List.foldl_cons]
    exact dbGrows_trans (runEntity_grows up cfg failAt now st hd) (ih _)

/-- After a fully successful run over a window-independent upstream, every
candidate of every routed player is settled, whatever window it is listed
for. -/
lemma foldl_runEntity_settles (up : Upstream) (cfg : Cfg) (now : Nat)
    (hstable : ∀ pu s1 e1 s2 e2 cnt,
      up.matchIds pu s1 e1 cnt = up.matchIds pu s2 e2 cnt)
    (ps : List PlayerCfg) :
    ∀ st : RunState, ∀ p ∈ ps, ∀ routing,
      cfg.routingOf p.platform = some routing →
      ∀ s e, ∀ mid ∈ up.matchIds (up.puuidOf p.riot_id) s e
          (min cfg.maxMatchesPerPlayer 100),
        settled up (up.puuidOf p.riot_id) (enabled_queue_ids cfg (some p)) mid
          ((ps.foldl (runEntity up cfg (fun _ => none) now) st).db) := by
  induction ps with
  | nil =>
    intro st p hp
    exact absurd hp (List.not_mem_nil _)
  | cons hd tl ih =>
    intro st p hp routing hroute s e mid hmem
    rw [List.foldl_cons]
    rcases List.mem_cons.mp hp with rfl | hp'
    · have hmem' : mid ∈ up.matchIds (up.puuidOf p.riot_id)
          (window_start st.db (up.puuidOf p.riot_id) now cfg.lookbackDays) now
          (min cfg.maxMatchesPerPlayer 100) := by
        rw [hstable (up.puuidOf p.riot_id)
          (window_start st.db (up.puuidOf p.riot_id) now cfg.lookbackDays) now s e
          (min cfg.maxMatchesPerPlayer 100)]
        exact hmem
      exact settled_mono _ _ _ _ (foldl_runEntity_grows up cfg (fun _ => none) now tl _)
        (runEntity_settles up cfg (fun _ => none) now st p routing hroute rfl mid hmem')
    · exact ih _ p hp' routing hroute s e mid hmem

/-- `settled` only reads the two row tables. -/
lemma settled_congr (up : Upstream) (pu : Puuid) (enabled : List Int)
    (mid : MatchId) {db db' : DB} (h1 : db'.matchRows = db.matchRows)
    (h2 : db'.player_match_stats = db.player_match_stats)
    (h : settled up pu enabled mid db) : settled up pu enabled mid db' := by
  have hme : ∀ m, match_exists db' m = match_exists db m := by
    intro m
    unfold match_exists
    rw [h1]
  have hse : ∀ pu' m, stat_exists db' pu' m = stat_exists db pu' m := by
    intro pu' m
    unfold stat_exists
    rw [h2]
  rcases h with h | ⟨ha, hb⟩ | ⟨ha, hb⟩
  · exact Or.inl h
  · refine Or.inr (Or.inl ⟨?_, ?_⟩)
    · rw [hme mid]
      exact ha
    · rw [hse pu mid]
      exact hb
  · refine Or.inr (Or.inr ⟨?_, hb⟩)
    rw [hme mid]
    exact ha

/-- An entity iteration over fully settled candidates leaves both row tables
untouched (only the checkpoint table can change). -/
lemma runEntity_id_tables (up : Upstream) (cfg : Cfg)
    (failAt : String → Option Nat) (now : Nat) (st : RunState) (p : PlayerCfg)
    (h : ∀ mid ∈ up.matchIds (up.puuidOf p.riot_id)
        (window_start st.db (up.puuidOf p.riot_id) now cfg.lookbackDays) now
        (min cfg.maxMatchesPerPlayer 100),
      settled up (up.puuidOf p.riot_id) (enabled_queue_ids cfg (some p)) mid st.db) :
    (runEntity up cfg failAt now st p).db.matchRows = st.db.matchRows ∧
    (runEntity up cfg failAt now st p).db.player_match_stats =
      st.db.player_match_stats := by
  unfold runEntity
  rcases hroute : cfg.routingOf p.platform with _ | routing
  · exact ⟨rfl, rfl⟩
  · dsimp only
    rcases hfail : failAt p.riot_id with _ | k
    · dsimp only
      have hid := foldl_processMatch_settled_id up (up.puuidOf p.riot_id) routing
        now (enabled_queue_ids cfg (some p)) _ (st.db, st.counters) h
      constructor
      · rw [set_checkpoint_matchRows, set_checkpoint_matchRows, hid]
      · rw [set_checkpoint_player_match_stats, set_checkpoint_player_match_stats, hid]
    · dsimp only
      have hid := foldl_processMatch_settled_id up (up.puuidOf p.riot_id) routing
        now (enabled_queue_ids cfg (some p)) _ (st.db, st.counters)
        (fun mid hm => h mid (List.take_subset k _ hm))
      exact ⟨by rw [hid], by rw [hid]⟩

/-- A whole run over fully settled candidates leaves both row tables
untouched. -/
lemma foldl_runEntity_id_tables (up : Upstream) (cfg : Cfg)
    (failAt : String → Option Nat) (now : Nat)
    (db1 : DB) (ps : List PlayerCfg) :
    ∀ st : RunState, st.db.matchRows = db1.matchRows →
      st.db.player_match_stats = db1.player_match_stats →
      (∀ p ∈ ps, ∀ routing, cfg.routingOf p.platform = some routing →
        ∀ s e, ∀ mid ∈ up.matchIds (up.puuidOf p.riot_id) s e
            (min cfg.maxMatchesPerPlayer 100),
          settled up (up.puuidOf p.riot_id) (enabled_queue_ids cfg (some p)) mid db1) →
      ((ps.foldl (runEntity up cfg failAt now) st).db).matchRows = db1.matchRows ∧
      ((ps.foldl (runEntity up cfg failAt now) st).db).player_match_stats =
        db1.player_match_stats := by
  induction ps with
  | nil =>
    intro st h1 h2 _
    exact ⟨h1, h2⟩
  | cons hd tl ih =>
    intro st h1 h2 hset
    rw [List.foldl_cons]
    have hstep : (runEntity up cfg failAt now st hd).db.matchRows = st.db.matchRows ∧
        (runEntity up cfg failAt now st hd).db.player_match_stats =
          st.db.player_match_stats := by
      rcases hroute : cfg.routingOf hd.platform with _ | routing
      · unfold runEntity
        rw [hroute]
        exact ⟨rfl, rfl⟩
      · apply runEntity_id_tables
        intro mid hmem
        exact settled_congr _ _ _ _ h1 h2
          (hset hd (List.mem_cons_self hd tl) routing hroute _ _ mid hmem)
    exact ih _ (hstep.1.trans h1) (hstep.2.trans h2)
      (fun p hp => hset p (List.mem_cons_of_mem _ hp))

/-- At most one `matches` row per match id (the table's primary key). -/
def matchKeysNodup (db : DB) : Prop :=
  (db.matchRows.map MatchRow.match_id).Nodup

/-- At most one `player_match_stats` row per `(puuid, match_id)` (the table's
unique key). -/
def statKeysNodup (db : DB) : Prop :=
  (db.player_match_stats.map (fun r => (r.puuid, r.match_id))).Nodup

lemma match_exists_false_not_mem (db : DB) (mid : MatchId)
    (h : match_exists db mid = false) :
    mid ∉ db.matchRows.map MatchRow.match_id := by
  intro hmem
  rcases List.mem_map.mp hmem with ⟨r, hr, hrid⟩
  have htrue : match_exists db mid = true := by
    unfold match_exists
    exact List.any_eq_true.mpr ⟨r, hr, by simp [hrid]⟩
  rw [h] at htrue
  exact Bool.false_ne_true htrue

lemma stat_exists_false_not_mem (db : DB) (pu : Puuid) (mid : MatchId)
    (h : stat_exists db pu mid = false) :
    (pu, mid) ∉ db.player_match_stats.map (fun r => (r.puuid, r.match_id)) := by
  intro hmem
  rcases List.mem_map.mp hmem with ⟨r, hr, hk⟩
  have h1 : r.puuid = pu := congrArg Prod.fst hk
  have h2 : r.match_id = mid := congrArg Prod.snd hk
  have htrue : stat_exists db pu mid = true := by
    unfold stat_exists
    exact List.any_eq_true.mpr ⟨r, hr, by simp [h1, h2]⟩
  rw [h] at htrue
  exact Bool.false_ne_true htrue

lemma insert_match_row_keys (db : DB) (mid : MatchId) (routing : String)
    (info : MatchInfo) (now : Nat) (h : matchKeysNodup db) :
    matchKeysNodup (insert_match_row db mid routing info now) := by
  unfold insert_match_row
  dsimp only
  split
  · exact h
  · next hme =>
    unfold matchKeysNodup at h ⊢
    dsimp only
    rw [List.map_append]
    have hmem := match_exists_false_not_mem db mid (by simpa using hme)
    simp [List.nodup_append, h, hmem]

lemma insert_player_match_stats_keys (db : DB) (pu : Puuid) (mid : MatchId)
    (info : MatchInfo) (h : statKeysNodup db) :
    statKeysNodup (insert_player_match_stats db pu mid info).1 := by
  rcases hf : find_participant info pu with _ | part
  · rw [insert_player_match_stats_false db pu mid info (Or.inl hf)]
    exact h
  · rcases hm : msToSec info.gameStartTimestamp with _ | ts
    · rw [insert_player_match_stats_false db pu mid info (Or.inr hm)]
      exact h
    · rw [insert_player_match_stats_true db pu mid info part ts hf hm]
      dsimp only
      split
      · exact h
      · next hse =>
        unfold statKeysNodup at h ⊢
        dsimp only
        rw [List.map_append]
        have hmem := stat_exists_false_not_mem db pu mid (by simpa using hse)
        refine h.append (List.nodup_singleton _) ?_
        intro a ha hb
        simp only [List.map_cons, List.map_nil, List.mem_singleton] at hb
        subst hb
        exact hmem ha

lemma processMatch_keys (up : Upstream) (pu : Puuid) (routing : String)
    (now : Nat) (enabled : List Int) (st : DB × Counters) (mid : MatchId)
    (h1 : matchKeysNodup st.1) (h2 : statKeysNodup st.1) :
    matchKeysNodup (processMatch up pu routing now enabled st mid).1 ∧
    statKeysNodup (processMatch up pu routing now enabled st mid).1 := by
  unfold processMatch
  dsimp only
  split
  · split
    · exact ⟨h1, h2⟩
    · split
      · exact ⟨h1, h2⟩
      · constructor
        · unfold matchKeysNodup at h1 ⊢
          rw [insert_player_match_stats_matchRows]
          exact h1
        · exact insert_player_match_stats_keys _ _ _ _ h2
  · split
    · exact ⟨h1, h2⟩
    · constructor
      · have hm := insert_match_row_keys st.1 mid routing (up.payload mid) now h1
        unfold matchKeysNodup at hm ⊢
        rw [insert_player_match_stats_matchRows]
        exact hm
      · apply insert_player_match_stats_keys
        unfold statKeysNodup at h2 ⊢
        rw [insert_match_row_player_match_stats]
        exact h2

lemma foldl_processMatch_keys (up : Upstream) (pu : Puuid) (routing : String)
    (now : Nat) (enabled : List Int) (mids : List MatchId) :
    ∀ st : DB × Counters, matchKeysNodup st.1 → statKeysNodup st.1 →
      matchKeysNodup ((mids.foldl (processMatch up pu routing now enabled) st).1) ∧
      statKeysNodup ((mids.foldl (processMatch up pu routing now enabled) st).1) := by
  induction mids with
  | nil => intro st h1 h2; exact ⟨h1, h2⟩
  | cons hd tl ih =>
    intro st h1 h2
    rw [List.foldl_cons]
    have hstep := processMatch_keys up pu routing now enabled st hd h1 h2
    exact ih _ hstep.1 hstep.2

lemma runEntity_keys (up : Upstream) (cfg : Cfg) (failAt : String → Option Nat)
    (now : Nat) (st : RunState) (p : PlayerCfg)
    (h1 : matchKeysNodup st.db) (h2 : statKeysNodup st.db) :
    matchKeysNodup (runEntity up cfg failAt now st p).db ∧
    statKeysNodup (runEntity up cfg failAt now st p).db := by
  unfold runEntity
  rcases cfg.routingOf p.platform with _ | routing
  · exact ⟨h1, h2⟩
  · dsimp only
    rcases failAt p.riot_id with _ | k
    · dsimp only
      have hfold := foldl_processMatch_keys up (up.puuidOf p.riot_id) routing now
        (enabled_queue_ids cfg (some p))
        (up.matchIds (up.puuidOf p.riot_id)
          (window_start st.db (up.puuidOf p.riot_id) now cfg.lookbackDays) now
          (min cfg.maxMatchesPerPlayer 100)) (st.db, st.counters) h1 h2
      constructor
      · unfold matchKeysNodup at hfold ⊢
        rw [set_checkpoint_matchRows, set_checkpoint_matchRows]
        exact hfold.1
      · unfold statKeysNodup at hfold ⊢
        rw [set_checkpoint_player_match_stats, set_checkpoint_player_match_stats]
        exact hfold.2
    · dsimp only
      exact foldl_processMatch_keys up (up.puuidOf p.riot_id) routing now
        (enabled_queue_ids cfg (some p))
        ((up.matchIds (up.puuidOf p.riot_id)
          (window_start st.db (up.puuidOf p.riot_id) now cfg.lookbackDays) now
          (min cfg.maxMatchesPerPlayer 100)).take k) (st.db, st.counters) h1 h2

lemma foldl_runEntity_keys (up : Upstream) (cfg : Cfg)
    (failAt : String → Option Nat) (now : Nat) (ps : List PlayerCfg) :
    ∀ st : RunState, matchKeysNodup st.db → statKeysNodup st.db →
      matchKeysNodup ((ps.foldl (runEntity up cfg failAt now) st).db) ∧
      statKeysNodup ((ps.foldl (runEntity up cfg failAt now) st).db) := by
  induction ps with
  | nil => intro st h1 h2; exact ⟨h1, h2⟩
  | cons hd tl ih =>
    intro st h1 h2
    rw [List.foldl_cons]
    have hstep := runEntity_keys up cfg failAt now st hd h1 h2
    exact ih _ hstep.1 hstep.2

/-- C6: ingestion is idempotent. Over an unchanged upstream (the same
match-id lists — window-independent — and the same payloads), a second run of
`ingest` changes neither row table; key uniqueness (at most one Match row per
match id, at most one stat row per `(entity, match)` pair) is preserved by a
run; and duplicate inserts are no-ops (`INSERT OR IGNORE` on an existing key
leaves the table unchanged). -/
theorem ingest_idempotent (up : Upstream) (cfg : Cfg) (now1 now2 : Nat)
    (db0 : DB)
    (hstable : ∀ pu s1 e1 s2 e2 cnt,
      up.matchIds pu s1 e1 cnt = up.matchIds pu s2 e2 cnt) :
    ((ingest up cfg (fun _ => none) now2
        (ingest up cfg (fun _ => none) now1 db0).db).db.matchRows =
      (ingest up cfg (fun _ => none) now1 db0).db.matchRows) ∧
    ((ingest up cfg (fun _ => none) now2
        (ingest up cfg (fun _ => none) now1 db0).db).db.player_match_stats =
      (ingest up cfg (fun _ => none) now1 db0).db.player_match_stats) ∧
    (matchKeysNodup db0 → statKeysNodup db0 →
      matchKeysNodup (ingest up cfg (fun _ => none) now1 db0).db ∧
      statKeysNodup (ingest up cfg (fun _ => none) now1 db0).db) ∧
    (∀ db mid routing info now, match_exists db mid = true →
      insert_match_row db mid routing info now = db) ∧
    (∀ db pu mid info, stat_exists db pu mid = true →
      (insert_player_match_stats db pu mid info).1 = db) := by
  have hset := foldl_runEntity_settles up cfg now1 hstable cfg.players
    ⟨db0, ⟨0, 0, 0⟩, []⟩
  have hrun2 := foldl_runEntity_id_tables up cfg (fun _ => none) now2
    (ingest up cfg (fun _ => none) now1 db0).db cfg.players
    ⟨(ingest up cfg (fun _ => none) now1 db0).db, ⟨0, 0, 0⟩, []⟩ rfl rfl
    (fun p hp routing hroute s e mid hmem =>
      hset p hp routing hroute s e mid hmem)
  refine ⟨hrun2.1, hrun2.2, ?_, ?_, ?_⟩
  · intro h1 h2
    exact foldl_runEntity_keys up cfg (fun _ => none) now1 cfg.players
      ⟨db0, ⟨0, 0, 0⟩, []⟩ h1 h2
  · intro db mid routing info now h
    unfold insert_match_row
    dsimp only
    rw [if_pos h]
  · intro db pu mid info h
    rcases hf : find_participant info pu with _ | part
    · rw [insert_player_match_stats_false db pu mid info (Or.inl hf)]
    · rcases hm : msToSec info.gameStartTimestamp with _ | ts
      · rw [insert_player_match_stats_false db pu mid info (Or.inr hm)]
      · rw [insert_player_match_stats_true db pu mid info part ts hf hm]
        dsimp only
        rw [if_pos h]

/-- Witness for C6 at a concrete upstream whose match-id list is
window-independent. -/
theorem ingest_idempotent_witness :
    (ingest upOrphan cfgA (fun _ => none) 60
        (ingest upOrphan cfgA (fun _ => none) 50 ⟨[], [], []⟩).db).db.matchRows =
      (ingest upOrphan cfgA (fun _ => none) 50 ⟨[], [], []⟩).db.matchRows :=
  (ingest_idempotent upOrphan cfgA 50 60 ⟨[], [], []⟩
    (fun _ _ _ _ _ _ => rfl)).1

/-! ## C9 — the time-dead backfill pass (src/backlog_deadtime.py)

The script first runs one SELECT (lines 30-37) picking `(puuid, match_id,
routing)` from `player_match_stats` joined with `matches`, restricted to
`game_start_ts >= start` and `time_dead_s IS NULL`; it then, per selected
row, fetches the payload, locates the participant, and — when
`totalTimeSpentDead` is present — runs
`UPDATE player_match_stats SET time_dead_s = ? WHERE puuid = ? AND match_id = ?`
(lines 62-65). The `ORDER BY ... DESC` only fixes the processing order, which
cannot affect the final table (each update writes a payload-determined value
at its own key); the join is modelled as an existence test against `matches`,
exact under the table's primary key. `m.routing` is only used to build the
fetch URL. -/

/-- The SELECT of src/backlog_deadtime.py lines 30-37, as the list of
`(puuid, match_id)` keys to backfill. A NULL `game_start_ts` fails the SQL
comparison and is not selected. -/
def deadtimeSelect (db : DB) (startTs : Int) : List (Puuid × MatchId) :=
  (db.player_match_stats.filter (fun r =>
    (match r.game_start_ts with
     | some t => decide (startTs ≤ t)
     | none => false)
    && r.time_dead_s.isNone
    && match_exists db r.match_id)).map (fun r => (r.puuid, r.match_id))

/-- The UPDATE of src/backlog_deadtime.py lines 62-65. -/
def backfillUpdate (db : DB) (pu : Puuid) (mid : MatchId) (v : Int) : DB :=
  { db with player_match_stats := db.player_match_stats.map (fun r =>
      if r.puuid == pu && r.match_id == mid then { r with time_dead_s := some v }
      else r) }

/-- One iteration of the backfill loop (src/backlog_deadtime.py lines 42-66):
`continue` when the participant is missing or its `totalTimeSpentDead` is
absent (the two `continue`s, folded into one `Option.bind`), else update the
row with the raw value. -/
def backfillStep (up : Upstream) (db : DB) (key : Puuid × MatchId) : DB :=
  match (find_participant (up.payload key.2) key.1).bind
      Participant.totalTimeSpentDead with
  | none => db
  | some raw => backfillUpdate db key.1 key.2 raw

/-- The whole backfill pass: the key list is computed once from the initial
database (`fetchall` before the loop), then each key is processed. -/
def backfill (up : Upstream) (startTs : Int) (db : DB) : DB :=
  (deadtimeSelect db startTs).foldl (backfillStep up) db

/-- Row-level frame: `r` differs from `r0` in at most the `time_dead_s`
column (overwriting it with `r0`'s value restores `r0` exactly), and if it
does differ there then `r0.time_dead_s` was NULL. -/
def statRowFrame (r0 r : StatRow) : Prop :=
  ({ r with time_dead_s := r0.time_dead_s } = r0) ∧
  (r.time_dead_s ≠ r0.time_dead_s → r0.time_dead_s = none)

lemma statRowFrame_refl (r : StatRow) : statRowFrame r r :=
  ⟨rfl, fun h => absurd rfl h⟩

/-- Table-level frame: same number of rows, each row related to the original
row at the same position. -/
def statTableFrame (l0 l : List StatRow) : Prop :=
  l.length = l0.length ∧ ∀ i, (hi : i < l.length) → (hi0 : i < l0.length) →
    statRowFrame (l0.get ⟨i, hi0⟩) (l.get ⟨i, hi⟩)

lemma statTableFrame_refl (l : List StatRow) : statTableFrame l l :=
  ⟨rfl, fun _ _ _ => statRowFrame_refl _⟩

lemma statRowFrame_fields {r0 r : StatRow} (h : statRowFrame r0 r) :
    r.puuid = r0.puuid ∧ r.match_id = r0.match_id := by
  constructor
  · have hp := congrArg StatRow.puuid h.1
    simpa using hp
  · have hm := congrArg StatRow.match_id h.1
    simpa using hm

lemma backfillUpdate_frame (l0 : List StatRow)
    (hnodup : (l0.map (fun r => (r.puuid, r.match_id))).Nodup)
    (pu : Puuid) (mid : MatchId) (v : Int)
    (hk : ∃ r0 ∈ l0, r0.puuid = pu ∧ r0.match_id = mid ∧ r0.time_dead_s = none)
    (l : List StatRow) (h : statTableFrame l0 l) :
    statTableFrame l0 (l.map (fun r =>
      if r.puuid == pu && r.match_id == mid then { r with time_dead_s := some v }
      else r)) := by
  obtain ⟨hlen, hidx⟩ := h
  refine ⟨by rw [List.length_map, hlen], ?_⟩
  intro i hi hi0
  have hi' : i < l.length := by
    rw [List.length_map] at hi
    exact hi
  rw [List.get_map]
  by_cases hcond :
      ((l.get ⟨i, hi'⟩).puuid == pu && (l.get ⟨i, hi'⟩).match_id == mid) = true
  · rw [if_pos hcond]
    have hcond' := hcond
    simp only [Bool.and_eq_true] at hcond'
    obtain ⟨hc1, hc2⟩ := hcond'
    have hrpu : (l.get ⟨i, hi'⟩).puuid = pu := by
      exact eq_of_beq hc1
    have hrmid : (l.get ⟨i, hi'⟩).match_id = mid := by
      exact eq_of_beq hc2
    have hfields := statRowFrame_fields (hidx i hi' hi0)
    have h0pu : (l0.get ⟨i, hi0⟩).puuid = pu := by
      rw [← hfields.1]
      exact hrpu
    have h0mid : (l0.get ⟨i, hi0⟩).match_id = mid := by
      rw [← hfields.2]
      exact hrmid
    obtain ⟨r0, hr0mem, hr0pu, hr0mid, hr0none⟩ := hk
    obtain ⟨j, hj⟩ := List.mem_iff_get.mp hr0mem
    have hkeyeq : (l0.map (fun r => (r.puuid, r.match_id))).get
          ⟨i, by rw [List.length_map]; exact hi0⟩ =
        (l0.map (fun r => (r.puuid, r.match_id))).get
          ⟨j.1, by rw [List.length_map]; exact j.2⟩ := by
      rw [List.get_map, List.get_map]
      have hj' : l0.get ⟨j.1, j.2⟩ = r0 := by
        rw [← hj]
      rw [hj', hr0pu, hr0mid, h0pu, h0mid]
    have hij := hnodup.get_inj_iff.mp hkeyeq
    have hij' : i = j.1 := congrArg Fin.val hij
    have h0r0 : l0.get ⟨i, hi0⟩ = r0 := by
      rw [← hj]
      congr 1
      exact Fin.ext hij'
    have h0none : (l0.get ⟨i, hi0⟩).time_dead_s = none := by
      rw [h0r0]
      exact hr0none
    constructor
    · have hbase := (hidx i hi' hi0).1
      exact hbase
    · intro _
      exact h0none
  · rw [if_neg hcond]
    exact hidx i hi' hi0

lemma backfillStep_frame (up : Upstream) (l0 : List StatRow)
    (hnodup : (l0.map (fun r => (r.puuid, r.match_id))).Nodup)
    (k : Puuid × MatchId)
    (hk : ∃ r0 ∈ l0, r0.puuid = k.1 ∧ r0.match_id = k.2 ∧ r0.time_dead_s = none)
    (db : DB) (h : statTableFrame l0 db.player_match_stats) :
    statTableFrame l0 (backfillStep up db k).player_match_stats ∧
    (backfillStep up db k).matchRows = db.matchRows ∧
    (backfillStep up db k).ingest_state = db.ingest_state := by
  unfold backfillStep
  rcases (find_participant (up.payload k.2) k.1).bind
      Participant.totalTimeSpentDead with _ | raw
  · exact ⟨h, rfl, rfl⟩
  · exact ⟨backfillUpdate_frame l0 hnodup k.1 k.2 raw hk _ h, rfl, rfl⟩

lemma deadtimeSelect_sound (db : DB) (startTs : Int) :
    ∀ k ∈ deadtimeSelect db startTs, ∃ r0 ∈ db.player_match_stats,
      r0.puuid = k.1 ∧ r0.match_id = k.2 ∧ r0.time_dead_s = none := by
  intro k hk
  unfold deadtimeSelect at hk
  rcases List.mem_map.mp hk with ⟨r, hr, rfl⟩
  have hfil := List.mem_filter.mp hr
  refine ⟨r, hfil.1, rfl, rfl, ?_⟩
  have hsel := hfil.2
  simp only [Bool.and_eq_true] at hsel
  exact Option.isNone_iff_eq_none.mp hsel.1.2

lemma foldl_backfillStep_frame (up : Upstream) (l0 : List StatRow)
    (hnodup : (l0.map (fun r => (r.puuid, r.match_id))).Nodup)
    (keys : List (Puuid × MatchId))
    (hks : ∀ k ∈ keys, ∃ r0 ∈ l0,
      r0.puuid = k.1 ∧ r0.match_id = k.2 ∧ r0.time_dead_s = none) :
    ∀ db : DB, statTableFrame l0 db.player_match_stats →
      statTableFrame l0 ((keys.foldl (backfillStep up) db).player_match_stats) ∧
      ((keys.foldl (backfillStep up) db).matchRows = db.matchRows) ∧
      ((keys.foldl (backfillStep up) db).ingest_state = db.ingest_state) := by
  induction keys with
  | nil => intro db h; exact ⟨h, rfl, rfl⟩
  | cons hd tl ih =>
    intro db h
    rw [List.foldl_cons]
    have hstep := backfillStep_frame up l0 hnodup hd
      (hks hd (List.mem_cons_self hd tl)) db h
    have htl := ih (fun kk hkk => hks kk (List.mem_cons_of_mem _ hkk))
      (backfillStep up db hd) hstep.1
    exact ⟨htl.1, htl.2.1.trans hstep.2.1, htl.2.2.trans hstep.2.2⟩

/-- C9: the backfill pass touches only the nullable `time_dead_s` column of
`player_match_stats`, and only on rows whose `time_dead_s` was NULL: the
`matches` and `ingest_state` tables are untouched, no stat row is added or
removed, every stat row keeps every column other than `time_dead_s`, and a
row whose `time_dead_s` changed had NULL there before (so rows with a
non-null `time_dead_s` are unchanged entirely). -/
theorem backfill_frame_spec (up : Upstream) (startTs : Int) (db : DB)
    (hkeys : statKeysNodup db) :
    (backfill up startTs db).matchRows = db.matchRows ∧
    (backfill up startTs db).ingest_state = db.ingest_state ∧
    (backfill up startTs db).player_match_stats.length =
      db.player_match_stats.length ∧
    ∀ i, (hi : i < (backfill up startTs db).player_match_stats.length) →
      (hi0 : i < db.player_match_stats.length) →
      statRowFrame (db.player_match_stats.get ⟨i, hi0⟩)
        ((backfill up startTs db).player_match_stats.get ⟨i, hi⟩) := by
  have hfold := foldl_backfillStep_frame up db.player_match_stats hkeys
    (deadtimeSelect db startTs) (deadtimeSelect_sound db startTs) db
    (statTableFrame_refl _)
  exact ⟨hfold.2.1, hfold.2.2, hfold.1.1, hfold.1.2⟩

/-- Witness for C9 at a concrete one-row database (one stat row, below the
window start): the backfill leaves the matches table and the stat row count
unchanged. -/
theorem backfill_frame_spec_witness :
    (backfill upQ999 5 ⟨[matchRowM1], [statRowPM1], []⟩).matchRows =
      [matchRowM1] ∧
    (backfill upQ999 5
        ⟨[matchRowM1], [statRowPM1], []⟩).player_match_stats.length = 1 := by
  have hk : statKeysNodup ⟨[matchRowM1], [statRowPM1], []⟩ := by
    unfold statKeysNodup
    decide
  exact ⟨(backfill_frame_spec upQ999 5 _ hk).1,
    (backfill_frame_spec upQ999 5 _ hk).2.2.1⟩

end Stats
